import Mathlib

/-!
Verification of the polyverse causal propagation engine against its
natural-language specification.

JavaScript numbers are modelled as real numbers, JS arrays as lists, and
the two external collaborators (the candidate-relationship generator and
the price-history provider, spec section 6) as function-valued parameters.
Loops are modelled with explicit fuel; every loop of the source consumes
at least one unit of its termination measure per iteration, so the fuel
supplied by each wrapper is always sufficient, and all properties proved
below hold for every fuel value.

Presentation-only string fields (the `explanation` narrative of an edge)
and the per-node `incomingLinks`/`outgoingLinks` arrays (views of the
global edge list) are omitted from the records; no specified property
mentions them.  The JSON `clobTokenIds` blob of a market is collapsed to
the optional first CLOB token it encodes, matching the data model of
spec section 3 ("optional price-series token reference").
-/

noncomputable section
open Classical

/-! ## JS primitives -/

/-- JS `x || d` on numbers: `0` falls back to the default. -/
def jsOr (x d : ℝ) : ℝ := if x = 0 then d else x

/-- JS `Array.prototype.indexOf` on string arrays: index of the first
occurrence, `-1` when absent. -/
def jsIndexOf (l : List String) (s : String) : ℤ :=
  match l.findIdx? (fun t => t == s) with
  | some i => (i : ℤ)
  | none => -1

/-- JS `arr[i] || d` for a numeric array read that may be out of range
(`undefined` and `0` both fall back to `d`). -/
def priceAtOr (prices : List ℝ) (i : ℤ) (d : ℝ) : ℝ :=
  match i with
  | Int.ofNat n =>
    match prices.get? n with
    | some p => jsOr p d
    | none => d
  | Int.negSucc _ => d

/-- `Math.max(0.01, Math.min(0.99, p))`. -/
def clampProb (p : ℝ) : ℝ := max (1/100) (min (99/100) p)

/-! ## price-history.ts -/

/-- A single historical price observation (`PricePoint`: unix seconds and
a price). -/
structure PricePoint where
  t : ℤ
  p : ℝ

/-- The mean used by `calculateCorrelation`: sum of the list divided by
its length. -/
def jsMean (xs : List ℝ) : ℝ := xs.sum / xs.length

/-- Sum of squared deviations from `m`, accumulated left to right as the
JS `for` loop does. -/
def centeredSq (xs : List ℝ) (m : ℝ) : ℝ :=
  xs.foldl (fun acc v => acc + (v - m) * (v - m)) 0

/-- Sum of products of deviations over index-aligned pairs. -/
def centeredProd (xs ys : List ℝ) (m1 m2 : ℝ) : ℝ :=
  (xs.zip ys).foldl (fun acc q => acc + (q.1 - m1) * (q.2 - m2)) 0

/-- price-history.ts `calculateCorrelation` (lines 64-99): Pearson
correlation of two equal-length series, with early return 0 for unequal
lengths or fewer than 10 points, and 0 when either standard deviation is
zero. -/
def calculateCorrelation (prices1 prices2 : List ℝ) : ℝ :=
  if prices1.length ≠ prices2.length ∨ prices1.length < 10 then 0
  else
    let n : ℝ := prices1.length
    let mean1 := jsMean prices1
    let mean2 := jsMean prices2
    let covariance := centeredProd prices1 prices2 mean1 mean2
    let variance1 := centeredSq prices1 mean1
    let variance2 := centeredSq prices2 mean2
    let stdDev1 := Real.sqrt (variance1 / n)
    let stdDev2 := Real.sqrt (variance2 / n)
    if stdDev1 = 0 ∨ stdDev2 = 0 then 0
    else covariance / (n * stdDev1 * stdDev2)

/-- Stable insertion by timestamp: the new element is placed before the
first strictly later element, so elements with equal timestamps keep
their original relative order (the JS sort with comparator
`a.t - b.t` is stable). -/
def insertByT (x : PricePoint) : List PricePoint → List PricePoint
  | [] => [x]
  | y :: ys => if y.t < x.t then y :: insertByT x ys else x :: y :: ys

/-- Stable sort of a price series by timestamp. -/
def sortByT : List PricePoint → List PricePoint
  | [] => []
  | x :: xs => insertByT x (sortByT xs)

/-- The two-pointer merge loop of `alignPriceSeries` (lines 120-137),
fuel-indexed; each iteration consumes at least one element, so
`|l1| + |l2|` fuel always suffices. -/
def alignLoop : ℕ → List PricePoint → List PricePoint → List ℝ × List ℝ × List ℤ
  | 0, _, _ => ([], [], [])
  | fuel + 1, l1, l2 =>
    match l1, l2 with
    | [], _ => ([], [], [])
    | _, [] => ([], [], [])
    | a :: as, b :: bs =>
      if |a.t - b.t| ≤ 3600 then
        let rest := alignLoop fuel as bs
        (a.p :: rest.1, b.p :: rest.2.1, min a.t b.t :: rest.2.2)
      else if a.t < b.t then alignLoop fuel as (b :: bs)
      else alignLoop fuel (a :: as) bs

/-- price-history.ts `alignPriceSeries` (lines 104-142): sort both series
by timestamp, then merge with a one-hour tolerance, emitting matched
price pairs and the earlier timestamp of each match. -/
def alignPriceSeries (history1 history2 : List PricePoint) :
    List ℝ × List ℝ × List ℤ :=
  alignLoop (history1.length + history2.length) (sortByT history1) (sortByT history2)

/-- Ascending insertion used to model the JS numeric sort of impact
ratios. -/
def insertAsc (x : ℝ) : List ℝ → List ℝ
  | [] => [x]
  | y :: ys => if y < x then y :: insertAsc x ys else x :: y :: ys

/-- Ascending sort of a real list. -/
def sortAsc : List ℝ → List ℝ
  | [] => []
  | x :: xs => insertAsc x (sortAsc xs)

/-- price-history.ts `calculateImpactMagnitude` (lines 147-170): median
ratio of B's move to A's move over the steps where A moved by at least
`threshold`.  The JS relies on equal-length inputs; an out-of-range read
is modelled as 0. -/
def calculateImpactMagnitude (pricesA pricesB : List ℝ) (threshold : ℝ) : ℝ :=
  let impacts := (List.range pricesA.length).foldl (fun acc i =>
    if i = 0 then acc
    else
      let changeA := (pricesA.getD i 0 - pricesA.getD (i-1) 0) / pricesA.getD (i-1) 0
      if threshold ≤ |changeA| then
        let changeB := (pricesB.getD i 0 - pricesB.getD (i-1) 0) / pricesB.getD (i-1) 0
        acc ++ [changeB / changeA]
      else acc) []
  if impacts = [] then 0
  else (sortAsc impacts).getD (impacts.length / 2) 0

/-! ## Data model (types/polymarket.ts, types/simulation.ts) -/

/-- The fields of a Polymarket market the engine reads. -/
structure Market where
  id : String
  question : String
  outcomes : List String
  outcomePrices : List ℝ
  tokenId : Option String

/-- causal-engine-simple.ts `extractTokenId`, on the collapsed token
field: the market's optional price-series token. -/
def extractTokenId (market : Market) : Option String := market.tokenId

/-- One candidate relationship produced by the external reasoning
collaborator (`findInterestingCausalMarkets` output item). -/
structure CausalResult where
  marketId : String
  reasoning : String
  timelag : String
  strength : ℝ
  impactDirection : String

/-- The external collaborators of spec section 6, supplied as
parameters: the candidate generator and the price-history provider
(already specialised to the interval "1w", fidelity 60 call the engine
makes). -/
structure Env where
  llm : Market → String → List Market → List CausalResult
  priceHistory : String → List PricePoint

/-- types/simulation.ts `CorrelationData`. -/
structure CorrelationData where
  marketId : String
  correlation : ℝ
  confidence : ℝ
  lagDays : ℕ
  sampleSize : ℕ
  direction : String

/-- types/simulation.ts `CausalLink` (without the presentation-only
`explanation` narrative). -/
structure CausalLink where
  sourceMarketId : String
  targetMarketId : String
  strength : ℝ
  direction : String
  timelag : String
  confidenceLevel : String
  llmGenerated : Bool
  historicalCorrelation : Option CorrelationData

/-- types/simulation.ts `SimulationNode` (without the per-node link-list
views of the global edge list). -/
structure SimulationNode where
  market : Market
  currentProbability : ℝ
  predictedProbability : ℝ
  probabilityChange : ℝ
  percentChange : ℝ
  layer : ℕ
  impactLevel : String

/-- types/simulation.ts `PropagationParams`. -/
structure PropagationParams where
  conservativeMode : Bool
  maxDepth : ℕ
  minCorrelation : ℝ
  includeLLMOnly : Bool

/-- The metadata block of a scenario. -/
structure ScenarioMetadata where
  totalMarketsAffected : ℕ
  avgProbabilityShift : ℝ
  maxProbabilityShift : ℝ
  confidenceScore : ℝ
  timeHorizon : String

/-- types/simulation.ts `SimulationScenario`. -/
structure SimulationScenario where
  name : String
  description : String
  triggerMarket : Market
  triggerOutcome : String
  triggerProbability : ℝ
  nodes : List SimulationNode
  edges : List CausalLink
  metadata : ScenarioMetadata

/-- The per-candidate validation record of causal-engine-simple.ts
(interface `ValidatedResult`, lines 132-141). -/
structure ValidatedResult where
  marketId : String
  reasoning : String
  timelag : String
  strength : ℝ
  impactDirection : String
  correlation : Option ℝ
  impactMagnitude : Option ℝ
  hasHistoricalData : Bool

/-! ## causal-engine-simple.ts -/

/-- Layer-indexed fan-out caps (`getMaxNodesForLayer`, lines 107-112). -/
def getMaxNodesForLayer (layer : ℕ) : ℕ :=
  if layer = 1 then 3 else if layer = 2 then 2 else if layer = 3 then 1 else 0

/-- The trigger market's memoised price history (lines 88-92): empty when
the market has no token. -/
def trigHistOf (env : Env) (triggerMarket : Market) : List PricePoint :=
  match extractTokenId triggerMarket with
  | some tok => env.priceHistory tok
  | none => []

/-- The correlation the validator computes for a market: the trigger's
history aligned with the market's own history (lines 180-191); 0 when
the market has no token. -/
def histCorrOf (env : Env) (triggerMarket market : Market) : ℝ :=
  match extractTokenId market with
  | some tok =>
    let al := alignPriceSeries (trigHistOf env triggerMarket) (env.priceHistory tok)
    calculateCorrelation al.1 al.2.1
  | none => 0

/-- The downgraded result emitted on the no-historical-data paths
(lines 157-161, 171-175, 183-187): strength halved, no correlation. -/
def downgradeResult (r : CausalResult) : ValidatedResult :=
  { marketId := r.marketId, reasoning := r.reasoning, timelag := r.timelag,
    strength := r.strength * (1/2), impactDirection := r.impactDirection,
    correlation := none, impactMagnitude := none, hasHistoricalData := false }

/-- Lines 145-216: validate one candidate against real price history.
`none` covers both a dangling or already-processed candidate (the JS
`continue`) and a candidate rejected by the AND gate. -/
def validateCandidate (env : Env) (trigHist : List PricePoint)
    (availableMarkets : List Market) (processed : List String)
    (r : CausalResult) : Option ValidatedResult :=
  match availableMarkets.find? (fun m => m.id == r.marketId) with
  | none => none
  | some market =>
    if market.id ∈ processed then none
    else
      match extractTokenId market with
      | none => some (downgradeResult r)
      | some tok =>
        if trigHist.length < 10 then some (downgradeResult r)
        else
          let marketHist := env.priceHistory tok
          if marketHist.length < 10 then some (downgradeResult r)
          else
            let al := alignPriceSeries trigHist marketHist
            if al.1.length < 10 then some (downgradeResult r)
            else
              let correlation := calculateCorrelation al.1 al.2.1
              let impactMagnitude := calculateImpactMagnitude al.1 al.2.1 (5/100)
              if 20/100 ≤ |correlation| ∧ 5/10 ≤ r.strength then
                some { marketId := r.marketId, reasoning := r.reasoning,
                       timelag := r.timelag,
                       strength := (|correlation| + r.strength) / 2,
                       impactDirection := r.impactDirection,
                       correlation := some correlation,
                       impactMagnitude := some impactMagnitude,
                       hasHistoricalData := true }
              else none

/-- The sort key of line 224: `(r.correlation || r.strength)` under JS
truthiness (a missing or zero correlation falls back to strength). -/
def sortKeyOf (r : ValidatedResult) : ℝ :=
  match r.correlation with
  | some c => jsOr c r.strength
  | none => r.strength

/-- Stable descending insertion by `sortKeyOf`. -/
def insertDescBy (x : ValidatedResult) : List ValidatedResult → List ValidatedResult
  | [] => [x]
  | y :: ys => if sortKeyOf x < sortKeyOf y then y :: insertDescBy x ys else x :: y :: ys

/-- Stable descending sort by `sortKeyOf` (the JS sort with comparator
`(b.correlation || b.strength) - (a.correlation || a.strength)`). -/
def sortDescBy : List ValidatedResult → List ValidatedResult
  | [] => []
  | x :: xs => insertDescBy x (sortDescBy xs)

/-- The builder's mutable state: the `nodes`, `edges`,
`processedMarkets` and `marketsToProcess` of lines 64-103. -/
structure BuildState where
  nodes : List SimulationNode
  edges : List CausalLink
  processed : List String
  queue : List (Market × ℕ)

/-- The trigger shock of lines 74 and 249: one minus the trigger
market's pre-simulation probability of the simulated outcome (with the
JS `|| 0.5` fallback). -/
def triggerShock (triggerMarket : Market) (triggerOutcome : String) : ℝ :=
  1 - priceAtOr triggerMarket.outcomePrices
        (jsIndexOf triggerMarket.outcomes triggerOutcome) (1/2)

/-- The node built for one admitted result (lines 236-295): probability
impact from the stored correlation when the result is data-backed under
JS truthiness, otherwise the stored-strength fallback; the direction
factor always comes from the collaborator's claimed direction
(lines 260 and 267). -/
def addedNode (triggerMarket : Market) (triggerOutcome : String)
    (market : Market) (currentLayer : ℕ) (r : ValidatedResult) : SimulationNode :=
  let currentProb := priceAtOr market.outcomePrices 0 (1/2)
  let c := r.correlation.getD 0
  let hist : Prop := r.hasHistoricalData = true ∧ c ≠ 0
  let changeMagnitude :=
    if hist then |c| * triggerShock triggerMarket triggerOutcome * (1/2)
    else r.strength * (10/100)
  let direction : ℝ := if r.impactDirection = "increase" then 1 else -1
  let predictedProb := clampProb (currentProb + direction * changeMagnitude)
  let probabilityChange := predictedProb - currentProb
  let percentChange := probabilityChange / currentProb * 100
  let impactLevel :=
    if 30 < |percentChange| then "high"
    else if 10 < |percentChange| then "medium" else "low"
  { market := market, currentProbability := currentProb,
    predictedProbability := predictedProb,
    probabilityChange := probabilityChange,
    percentChange := percentChange, layer := currentLayer + 1,
    impactLevel := impactLevel }

/-- The edge built for one admitted result (lines 297-322): directed
from the current frontier market to the admitted market, with the
correlation-sign direction when the result is data-backed under JS
truthiness. -/
def addedEdge (market : Market) (currentId : String) (trigHistLength : ℕ)
    (r : ValidatedResult) : CausalLink :=
  let c := r.correlation.getD 0
  let hist : Prop := r.hasHistoricalData = true ∧ c ≠ 0
  let confidenceLevel :=
    if hist then
      (if 6/10 < |c| then "HIGH" else if 3/10 < |c| then "MEDIUM" else "LOW")
    else "LOW"
  let edgeDirection :=
    if hist then (if 0 < c then "increase" else "decrease")
    else r.impactDirection
  { sourceMarketId := currentId, targetMarketId := market.id,
    strength := r.strength, direction := edgeDirection,
    timelag := r.timelag, confidenceLevel := confidenceLevel,
    llmGenerated := !r.hasHistoricalData,
    historicalCorrelation :=
      if hist then some
        { marketId := market.id, correlation := c, confidence := |c|,
          lagDays := 0, sampleSize := trigHistLength,
          direction := if 0 < c then "positive" else "negative" }
      else none }

/-- Lines 229-336: admit one validated result: create its node and its
edge from the current frontier market, mark it processed, and enqueue it
for further expansion when strong enough. -/
def addOne (triggerMarket : Market) (triggerOutcome : String)
    (availableMarkets : List Market) (params : PropagationParams)
    (trigHistLength : ℕ) (currentMarket : Market) (currentLayer : ℕ)
    (st : BuildState) (r : ValidatedResult) : BuildState :=
  match availableMarkets.find? (fun m => m.id == r.marketId) with
  | none => st
  | some market =>
    if market.id ∈ st.processed then st
    else
      { nodes := st.nodes ++
          [addedNode triggerMarket triggerOutcome market currentLayer r],
        edges := st.edges ++
          [addedEdge market currentMarket.id trigHistLength r],
        processed := st.processed ++ [market.id],
        queue :=
          if 1/2 < r.strength ∧ currentLayer + 1 < params.maxDepth
          then st.queue ++ [(market, currentLayer + 1)] else st.queue }

/-- Lines 117-336: one iteration of the layer loop after the dequeue:
ask the generator for candidates among unprocessed markets, validate
each, keep only data-backed results, sort them descending by key,
truncate to the layer cap, and admit the survivors. -/
def processOne (env : Env) (triggerMarket : Market) (triggerOutcome : String)
    (availableMarkets : List Market) (params : PropagationParams)
    (trigHist : List PricePoint) (currentMarket : Market) (currentLayer : ℕ)
    (st : BuildState) : BuildState :=
  let pool := availableMarkets.filter (fun m => !(st.processed.contains m.id))
  let causalResults := env.llm currentMarket triggerOutcome pool
  let validatedResults := causalResults.foldl (fun acc r =>
    match validateCandidate env trigHist availableMarkets st.processed r with
    | some v => acc ++ [v]
    | none => acc) []
  let sortedResults :=
    (sortDescBy (validatedResults.filter (fun v => v.hasHistoricalData))).take
      (getMaxNodesForLayer (currentLayer + 1))
  sortedResults.foldl
    (addOne triggerMarket triggerOutcome availableMarkets params
      trigHist.length currentMarket currentLayer) st

/-- The `while (queue.length > 0 && queue[0].layer < MAX_DEPTH)` loop of
line 114, fuel-indexed.  Each iteration dequeues one entry and every
enqueue consumes a fresh market, so the wrapper's fuel is always
sufficient. -/
def buildLoop (env : Env) (triggerMarket : Market) (triggerOutcome : String)
    (availableMarkets : List Market) (params : PropagationParams)
    (trigHist : List PricePoint) : ℕ → BuildState → BuildState
  | 0, st => st
  | fuel + 1, st =>
    match st.queue with
    | [] => st
    | (currentMarket, currentLayer) :: rest =>
      if currentLayer < 3 then
        buildLoop env triggerMarket triggerOutcome availableMarkets params trigHist
          fuel
          (processOne env triggerMarket triggerOutcome availableMarkets params
            trigHist currentMarket currentLayer { st with queue := rest })
      else st

/-- The layer-0 trigger node of lines 70-80: predicted probability fixed
at 1, current probability read off the trigger market with the JS
`|| 0.5` fallback. -/
def triggerNodeOf (triggerMarket : Market) (triggerOutcome : String) : SimulationNode :=
  { market := triggerMarket,
    currentProbability :=
      priceAtOr triggerMarket.outcomePrices
        (jsIndexOf triggerMarket.outcomes triggerOutcome) (1/2),
    predictedProbability := 1,
    probabilityChange :=
      1 - priceAtOr triggerMarket.outcomePrices
        (jsIndexOf triggerMarket.outcomes triggerOutcome) (1/2),
    percentChange := 100, layer := 0, impactLevel := "high" }

/-- The builder's state before the first loop iteration (lines 64-103). -/
def initialState (triggerMarket : Market) (triggerOutcome : String) : BuildState :=
  { nodes := [triggerNodeOf triggerMarket triggerOutcome], edges := [],
    processed := [triggerMarket.id], queue := [(triggerMarket, 0)] }

/-- The builder's state when the layer loop terminates. -/
def builtState (env : Env) (triggerMarket : Market) (triggerOutcome : String)
    (availableMarkets : List Market) (params : PropagationParams) : BuildState :=
  buildLoop env triggerMarket triggerOutcome availableMarkets params
    (trigHistOf env triggerMarket) (availableMarkets.length + 2)
    (initialState triggerMarket triggerOutcome)

/-- causal-engine-simple.ts `createSimulationScenario` (lines 51-385),
with the external collaborators supplied in `env`. -/
def createSimulationScenario (env : Env) (name description : String)
    (triggerMarket : Market) (triggerOutcome : String)
    (availableMarkets : List Market) (params : PropagationParams) :
    SimulationScenario :=
  let st := builtState env triggerMarket triggerOutcome availableMarkets params
  let totalMarketsAffected := st.nodes.length - 1
  let shifts := (st.nodes.drop 1).map (fun n => |n.probabilityChange|)
  let avgProbabilityShift :=
    shifts.sum / (if totalMarketsAffected = 0 then 1 else (totalMarketsAffected : ℝ))
  let maxProbabilityShift := shifts.foldr max 0
  let confidenceScores := st.edges.map (fun e =>
    if e.confidenceLevel = "HIGH" then (90 : ℝ)
    else if e.confidenceLevel = "MEDIUM" then 70 else 50)
  let confidenceScore :=
    confidenceScores.sum /
      (if st.edges.length = 0 then 1 else (st.edges.length : ℝ))
  let maxLayer : ℕ := (st.nodes.map (fun n => n.layer)).foldr max 0
  let timeHorizon :=
    if 3 ≤ maxLayer then "weeks"
    else if 2 ≤ maxLayer then "days"
    else if 1 ≤ maxLayer then "hours" else "immediate"
  { name := name, description := description, triggerMarket := triggerMarket,
    triggerOutcome := triggerOutcome, triggerProbability := 1,
    nodes := st.nodes, edges := st.edges,
    metadata :=
      { totalMarketsAffected := totalMarketsAffected,
        avgProbabilityShift := avgProbabilityShift,
        maxProbabilityShift := maxProbabilityShift,
        confidenceScore := confidenceScore, timeHorizon := timeHorizon } }

/-! ## propagation.ts -/

/-- A throwaway node used only as the default of out-of-range `getD`
reads; every indexed access below is in range. -/
def defaultNode : SimulationNode :=
  { market := { id := "", question := "", outcomes := [], outcomePrices := [],
                tokenId := none },
    currentProbability := 0, predictedProbability := 0,
    probabilityChange := 0, percentChange := 0, layer := 0,
    impactLevel := "low" }

instance : Inhabited SimulationNode := ⟨defaultNode⟩

/-- Stable ascending insertion by layer. -/
def insertByLayer (x : SimulationNode) : List SimulationNode → List SimulationNode
  | [] => [x]
  | y :: ys => if y.layer < x.layer then y :: insertByLayer x ys else x :: y :: ys

/-- The stable sort by layer of propagation.ts line 14. -/
def sortNodesByLayer : List SimulationNode → List SimulationNode
  | [] => []
  | x :: xs => insertByLayer x (sortNodesByLayer xs)

/-- propagation.ts lines 22-70: recompute the node at position `i` of the
working list from its incoming edges, leaving it untouched when it has
none or when no source node is found. -/
def propagateStep (edges : List CausalLink) (all : List SimulationNode)
    (i : ℕ) : List SimulationNode :=
  match all.get? i with
  | none => all
  | some node =>
    let incomingLinks := edges.filter (fun e => e.targetMarketId == node.market.id)
    if incomingLinks = [] then all
    else
      let acc := incomingLinks.foldl (fun (tw : ℝ × ℝ) link =>
        match all.find? (fun n => n.market.id == link.sourceMarketId) with
        | none => tw
        | some sourceNode =>
          let sourceShock := sourceNode.predictedProbability - sourceNode.currentProbability
          let direction : ℝ := if link.direction = "increase" then 1 else -1
          let influence := sourceShock * link.strength * direction
          let confidenceWeight : ℝ :=
            if link.confidenceLevel = "HIGH" then 1
            else if link.confidenceLevel = "MEDIUM" then 7/10 else 4/10
          (tw.1 + influence * confidenceWeight, tw.2 + confidenceWeight)) (0, 0)
      if 0 < acc.2 then
        let newProbability := clampProb (node.currentProbability + acc.1 / acc.2)
        let probabilityChange := newProbability - node.currentProbability
        let percentChange := probabilityChange / node.currentProbability * 100
        let impactLevel :=
          if 30 < |percentChange| then "high"
          else if 10 < |percentChange| then "medium" else "low"
        all.set i { node with predictedProbability := newProbability,
                              probabilityChange := probabilityChange,
                              percentChange := percentChange,
                              impactLevel := impactLevel }
      else all

/-- propagation.ts `propagateProbabilities` (lines 9-74): sort by layer,
then process layers 1..maxLayer in order; within a layer, nodes are
visited in list order (the layer field is never mutated, so filtering by
layer on the working list is position filtering). -/
def propagateProbabilities (nodes : List SimulationNode)
    (edges : List CausalLink) : List SimulationNode :=
  let sorted := sortNodesByLayer nodes
  let maxLayer := (sorted.map (fun n => n.layer)).foldr max 0
  (List.range' 1 maxLayer).foldl (fun st layer =>
    (List.range st.length).foldl (fun st2 i =>
      if (st2.getD i defaultNode).layer = layer then propagateStep edges st2 i
      else st2) st) sorted

/-- The mutable state of `detectFeedbackLoops`: visited set, recursion
stack and recorded loops. -/
structure DfsState where
  visited : List String
  recStack : List String
  loops : List (List String)

/-- propagation.ts lines 134-157: the recursive `dfs`, fuel-indexed; a
recursive call happens only on an unvisited node, so the number of
distinct ids bounds the depth and the wrapper's fuel is always
sufficient. -/
def dfsAux (edges : List CausalLink) : ℕ → String → List String → DfsState → DfsState
  | 0, _, _, st => st
  | fuel + 1, nodeId, path, st =>
    let st1 : DfsState :=
      { visited := nodeId :: st.visited, recStack := nodeId :: st.recStack,
        loops := st.loops }
    let path1 := path ++ [nodeId]
    let st2 := (edges.filter (fun e => e.sourceMarketId == nodeId)).foldl
      (fun s e =>
        if e.targetMarketId ∈ s.visited then
          (if e.targetMarketId ∈ s.recStack then
            { s with loops := s.loops ++
                [match path1.findIdx? (fun x => x == e.targetMarketId) with
                 | some i => path1.drop i
                 | none => []] }
          else s)
        else dfsAux edges fuel e.targetMarketId path1 s) st1
    { st2 with recStack := st2.recStack.erase nodeId }

/-- propagation.ts `detectFeedbackLoops` (lines 126-167): run the DFS
from every not-yet-visited node and return the recorded loops.  (The JS
skips the `loops.push` when `indexOf` returns -1; that case is modelled
by pushing the empty slice, and it in fact never occurs since the target
is on the current path whenever it is on the recursion stack.) -/
def detectFeedbackLoops (nodes : List SimulationNode)
    (edges : List CausalLink) : List (List String) :=
  (nodes.foldl (fun st n =>
    if n.market.id ∈ st.visited then st
    else dfsAux edges (nodes.length + edges.length + 1) n.market.id [] st)
    { visited := [], recStack := [], loops := [] }).loops

/-! ## app/api/simulation/run/route.ts -/

/-- The request body of the simulation run route, with the optional
params object flattened into optional fields. -/
structure SimulationRequest where
  marketId : Option String
  outcome : Option String
  scenarioName : Option String
  scenarioDescription : Option String
  conservativeMode : Option Bool
  maxDepth : Option ℕ
  minCorrelation : Option ℝ
  includeLLMOnly : Option Bool

/-- The route's own external collaborators: market details lookup, the
paginated market fetch, and the engine's collaborators. -/
structure RouteEnv where
  getMarketDetails : String → Option Market
  getMarkets : List Market
  engineEnv : Env

/-- A route response: an error with an HTTP status, or a scenario. -/
inductive ApiResponse where
  | error (status : ℕ) (message : String)
  | success (scenario : SimulationScenario)

/-- JS falsiness of an optional string: missing or empty. -/
def jsFalsyStr : Option String → Bool
  | none => true
  | some s => s == ""

/-- route.ts `POST` (lines 8-106): validate the body, resolve the
trigger market, reject an outcome not listed by the market before any
graph construction, require a large market pool, then build the
scenario. -/
def post (renv : RouteEnv) (req : SimulationRequest) : ApiResponse :=
  if jsFalsyStr req.marketId ∨ jsFalsyStr req.outcome then
    ApiResponse.error 400 "Missing required fields: marketId, outcome"
  else
    match renv.getMarketDetails (req.marketId.getD "") with
    | none => ApiResponse.error 404 "Trigger market not found"
    | some triggerMarket =>
      let outcome := req.outcome.getD ""
      if outcome ∈ triggerMarket.outcomes then
        let availableMarkets := renv.getMarkets
        if availableMarkets.length < 100 then
          ApiResponse.error 500
            ("Only fetched " ++ toString availableMarkets.length ++
              " markets - expected thousands")
        else
          let params : PropagationParams :=
            { conservativeMode := req.conservativeMode.getD false,
              maxDepth := req.maxDepth.getD 3,
              minCorrelation := req.minCorrelation.getD (3/10),
              includeLLMOnly := req.includeLLMOnly.getD true }
          ApiResponse.success (createSimulationScenario renv.engineEnv
            (req.scenarioName.getD (triggerMarket.question ++ " to " ++ outcome))
            (req.scenarioDescription.getD ("Simulation of " ++ outcome ++ " occurring"))
            triggerMarket outcome availableMarkets params)
      else ApiResponse.error 400 "Invalid outcome for this market"

/-! ## Correlation Analyzer lemmas (claim C6) -/

lemma centeredProd_comm (x y : List ℝ) (m1 m2 : ℝ) :
    centeredProd x y m1 m2 = centeredProd y x m2 m1 := by
  suffices h : ∀ (x y : List ℝ) (a : ℝ),
      (x.zip y).foldl (fun acc q => acc + (q.1 - m1) * (q.2 - m2)) a =
      (y.zip x).foldl (fun acc q => acc + (q.1 - m2) * (q.2 - m1)) a by
    exact h x y 0
  intro x
  induction x with
  | nil => intro y a; cases y <;> simp
  | cons hd tl ih =>
    intro y a
    cases y with
    | nil => simp
    | cons hd2 tl2 =>
      simp only [List.zip_cons_cons, List.foldl_cons]
      rw [show a + (hd - m1) * (hd2 - m2) = a + (hd2 - m2) * (hd - m1) by ring]
      exact ih tl2 _

lemma centeredProd_self (x : List ℝ) (m : ℝ) :
    centeredProd x x m m = centeredSq x m := by
  suffices h : ∀ (x : List ℝ) (a : ℝ),
      (x.zip x).foldl (fun acc q => acc + (q.1 - m) * (q.2 - m)) a =
      x.foldl (fun acc v => acc + (v - m) * (v - m)) a by exact h x 0
  intro x
  induction x with
  | nil => intro a; simp
  | cons hd tl ih =>
    intro a
    simp only [List.zip_cons_cons, List.foldl_cons]
    exact ih _

lemma centeredSq_nonneg (x : List ℝ) (m : ℝ) : 0 ≤ centeredSq x m := by
  suffices h : ∀ (x : List ℝ) (a : ℝ), 0 ≤ a →
      0 ≤ x.foldl (fun acc v => acc + (v - m) * (v - m)) a by
    exact h x 0 le_rfl
  intro x
  induction x with
  | nil => intro a ha; simpa using ha
  | cons hd tl ih =>
    intro a ha
    simp only [List.foldl_cons]
    exact ih _ (by nlinarith [mul_self_nonneg (hd - m)])

lemma calculateCorrelation_comm (x y : List ℝ) :
    calculateCorrelation x y = calculateCorrelation y x := by
  by_cases hl : x.length = y.length
  · by_cases h10 : x.length < 10
    · conv_lhs => rw [calculateCorrelation, if_pos (Or.inr h10)]
      conv_rhs => rw [calculateCorrelation, if_pos (Or.inr (hl ▸ h10))]
    · have hA : ¬(x.length ≠ y.length ∨ x.length < 10) := by
        push_neg
        exact ⟨hl, by omega⟩
      have hB : ¬(y.length ≠ x.length ∨ y.length < 10) := by
        push_neg
        exact ⟨hl.symm, by omega⟩
      conv_lhs => rw [calculateCorrelation, if_neg hA]
      conv_rhs => rw [calculateCorrelation, if_neg hB]
      have hc : (y.length : ℝ) = (x.length : ℝ) := by exact_mod_cast hl.symm
      simp only [hc]
      by_cases hS : Real.sqrt (centeredSq x (jsMean x) / (x.length : ℝ)) = 0 ∨
          Real.sqrt (centeredSq y (jsMean y) / (x.length : ℝ)) = 0
      · rw [if_pos hS, if_pos hS.symm]
      · rw [if_neg hS, if_neg (fun h => hS h.symm)]
        rw [centeredProd_comm, mul_right_comm]
  · conv_lhs => rw [calculateCorrelation, if_pos (Or.inl hl)]
    conv_rhs => rw [calculateCorrelation, if_pos (Or.inl (fun e => hl e.symm))]

lemma calculateCorrelation_self (x : List ℝ) (h10 : 10 ≤ x.length)
    (hv : centeredSq x (jsMean x) ≠ 0) : calculateCorrelation x x = 1 := by
  rw [calculateCorrelation, if_neg (by simp; omega)]
  have hV : 0 < centeredSq x (jsMean x) :=
    lt_of_le_of_ne (centeredSq_nonneg x (jsMean x)) (Ne.symm hv)
  have hn : (0 : ℝ) < (x.length : ℝ) := by
    have : 0 < x.length := by omega
    exact_mod_cast this
  have hVn : 0 < centeredSq x (jsMean x) / (x.length : ℝ) := div_pos hV hn
  have hs : Real.sqrt (centeredSq x (jsMean x) / (x.length : ℝ)) ≠ 0 := by
    rw [Real.sqrt_ne_zero']
    exact hVn
  simp only []
  rw [if_neg (by simpa using hs)]
  rw [centeredProd_self, mul_assoc, Real.mul_self_sqrt hVn.le, mul_comm,
    div_mul_cancel₀ _ (ne_of_gt hn), div_self hv]

/-- C6 (corrected: the source returns 0, not 1, for a self-correlation
over fewer than 10 points, so the self-correlation clause only holds
once the minimum-sample-size gate is met): for equal-length sequences
the correlation is symmetric, and for a sequence of at least 10 points
with nonzero variance the self-correlation is exactly 1. -/
theorem calculateCorrelation_symm_and_self :
    (∀ x y : List ℝ, x.length = y.length →
      calculateCorrelation x y = calculateCorrelation y x) ∧
    (∀ x : List ℝ, 10 ≤ x.length → centeredSq x (jsMean x) ≠ 0 →
      calculateCorrelation x x = 1) :=
  ⟨fun x y _ => calculateCorrelation_comm x y,
   fun x h10 hv => calculateCorrelation_self x h10 hv⟩

/-- C6 counterexample: the two-point sequence `[0, 1]` has nonzero
variance, yet its self-correlation is 0 (the function returns 0 below
10 points), not 1 as the claim states for every nonzero-variance
sequence. -/
theorem calculateCorrelation_self_short_cex :
    centeredSq [(0 : ℝ), 1] (jsMean [(0 : ℝ), 1]) ≠ 0 ∧
    calculateCorrelation [(0 : ℝ), 1] [(0 : ℝ), 1] ≠ 1 := by
  constructor
  · simp only [centeredSq, jsMean, List.foldl_cons, List.foldl_nil, List.sum_cons,
      List.sum_nil, List.length_cons, List.length_nil]
    norm_num
  · rw [calculateCorrelation, if_pos (by norm_num)]
    norm_num

/-! ## Series Aligner lemmas (claim C7) -/

lemma alignLoop_lengths (fuel : ℕ) :
    ∀ l1 l2, (alignLoop fuel l1 l2).1.length = (alignLoop fuel l1 l2).2.1.length ∧
      (alignLoop fuel l1 l2).1.length = (alignLoop fuel l1 l2).2.2.length := by
  induction fuel with
  | zero => intro l1 l2; simp [alignLoop]
  | succ fuel ih =>
    intro l1 l2
    match l1, l2 with
    | [], l2 => simp [alignLoop]
    | a :: as, [] => simp [alignLoop]
    | a :: as, b :: bs =>
      rw [alignLoop]
      split_ifs with h1 h2
      · have := ih as bs
        simp only [List.length_cons]
        omega
      · exact ih as (b :: bs)
      · exact ih (a :: as) bs

lemma alignLoop_nil_left (fuel : ℕ) (l2 : List PricePoint) :
    alignLoop fuel [] l2 = ([], [], []) := by
  cases fuel <;> simp [alignLoop]

lemma alignLoop_nil_right (fuel : ℕ) (l1 : List PricePoint) :
    alignLoop fuel l1 [] = ([], [], []) := by
  cases fuel with
  | zero => simp [alignLoop]
  | succ fuel => cases l1 <;> simp [alignLoop]

lemma alignLoop_ts_strict (fuel : ℕ) :
    ∀ l1 l2 : List PricePoint,
      List.Pairwise (fun u v : PricePoint => u.t < v.t) l1 →
      List.Pairwise (fun u v : PricePoint => u.t < v.t) l2 →
      List.Pairwise (· < ·) (alignLoop fuel l1 l2).2.2 ∧
      ∀ lb : ℤ, (∀ a ∈ l1, lb ≤ a.t) → (∀ b ∈ l2, lb ≤ b.t) →
        ∀ s ∈ (alignLoop fuel l1 l2).2.2, lb ≤ s := by
  induction fuel with
  | zero => intro l1 l2 _ _; simp [alignLoop]
  | succ fuel ih =>
    intro l1 l2 hs1 hs2
    match l1, l2 with
    | [], l2 => simp [alignLoop]
    | a :: as, [] => simp [alignLoop]
    | a :: as, b :: bs =>
      rw [alignLoop]
      have hs1t := (List.pairwise_cons.mp hs1).2
      have hs2t := (List.pairwise_cons.mp hs2).2
      have hs1h := (List.pairwise_cons.mp hs1).1
      have hs2h := (List.pairwise_cons.mp hs2).1
      split_ifs with h1 h2
      · have iht := ih as bs hs1t hs2t
        constructor
        · refine List.pairwise_cons.mpr ⟨?_, iht.1⟩
          intro s hsmem
          have hlb := iht.2 (min a.t b.t + 1)
            (fun x hx => by have := hs1h x hx; omega)
            (fun x hx => by have := hs2h x hx; omega) s hsmem
          omega
        · intro lb hlb1 hlb2 s hsmem
          rcases List.mem_cons.mp hsmem with h | h
          · have h1' := hlb1 a (List.mem_cons_self a as)
            have h2' := hlb2 b (List.mem_cons_self b bs)
            omega
          · exact iht.2 lb (fun x hx => hlb1 x (List.mem_cons_of_mem a hx))
              (fun x hx => hlb2 x (List.mem_cons_of_mem b hx)) s h
      · have iht := ih as (b :: bs) hs1t hs2
        exact ⟨iht.1, fun lb hlb1 hlb2 =>
          iht.2 lb (fun x hx => hlb1 x (List.mem_cons_of_mem a hx)) hlb2⟩
      · have iht := ih (a :: as) bs hs1 hs2t
        exact ⟨iht.1, fun lb hlb1 hlb2 =>
          iht.2 lb hlb1 (fun x hx => hlb2 x (List.mem_cons_of_mem b hx))⟩

lemma insertByT_perm (x : PricePoint) (l : List PricePoint) :
    List.Perm (insertByT x l) (x :: l) := by
  induction l with
  | nil => simp [insertByT]
  | cons y ys ih =>
    rw [insertByT]
    split_ifs with h
    · exact ((ih.cons y).trans (List.Perm.swap x y ys))
    · rfl

lemma sortByT_perm (l : List PricePoint) : List.Perm (sortByT l) l := by
  induction l with
  | nil => simp [sortByT]
  | cons x xs ih => exact (insertByT_perm x (sortByT xs)).trans (ih.cons x)

lemma insertByT_sorted (x : PricePoint) (l : List PricePoint)
    (hs : List.Pairwise (fun u v : PricePoint => u.t ≤ v.t) l) :
    List.Pairwise (fun u v : PricePoint => u.t ≤ v.t) (insertByT x l) := by
  induction l with
  | nil => simp [insertByT]
  | cons y ys ih =>
    have hsh := (List.pairwise_cons.mp hs).1
    have hst := (List.pairwise_cons.mp hs).2
    rw [insertByT]
    split_ifs with h
    · refine List.pairwise_cons.mpr ⟨?_, ih hst⟩
      intro z hz
      rcases List.mem_cons.mp ((insertByT_perm x ys).mem_iff.mp hz) with h2 | h2
      · subst h2; omega
      · exact hsh z h2
    · refine List.pairwise_cons.mpr ⟨?_, hs⟩
      intro z hz
      rcases List.mem_cons.mp hz with h2 | h2
      · subst h2; omega
      · have := hsh z h2
        omega

lemma sortByT_sorted (l : List PricePoint) :
    List.Pairwise (fun u v : PricePoint => u.t ≤ v.t) (sortByT l) := by
  induction l with
  | nil => simp [sortByT]
  | cons x xs ih => exact insertByT_sorted x (sortByT xs) ih

lemma sortByT_strict (l : List PricePoint)
    (hnd : (l.map (fun q => q.t)).Nodup) :
    List.Pairwise (fun u v : PricePoint => u.t < v.t) (sortByT l) := by
  have hnd2 : ((sortByT l).map (fun q => q.t)).Nodup :=
    (((sortByT_perm l).map (fun q => q.t)).nodup_iff).mpr hnd
  have hne : List.Pairwise (fun u v : PricePoint => u.t ≠ v.t) (sortByT l) :=
    List.pairwise_map.mp hnd2
  exact ((sortByT_sorted l).and hne).imp (fun h => lt_of_le_of_ne h.1 h.2)

/-- C7 (corrected: when either input series contains a repeated
timestamp the matched-timestamp output can repeat it, so the
no-duplicate clause needs pairwise-distinct input timestamps): the three
output sequences always have equal length, empty input gives empty
output, and with duplicate-free input timestamps the matched timestamps
are duplicate-free. -/
theorem alignPriceSeries_shape :
    (∀ h1 h2 : List PricePoint,
      (alignPriceSeries h1 h2).1.length = (alignPriceSeries h1 h2).2.1.length ∧
      (alignPriceSeries h1 h2).1.length = (alignPriceSeries h1 h2).2.2.length) ∧
    (∀ h1 h2 : List PricePoint, h1 = [] ∨ h2 = [] →
      alignPriceSeries h1 h2 = ([], [], [])) ∧
    (∀ h1 h2 : List PricePoint,
      (h1.map (fun q => q.t)).Nodup → (h2.map (fun q => q.t)).Nodup →
      (alignPriceSeries h1 h2).2.2.Nodup) := by
  refine ⟨fun h1 h2 => alignLoop_lengths _ _ _, fun h1 h2 h => ?_, fun h1 h2 hn1 hn2 => ?_⟩
  · rcases h with h | h
    · subst h
      exact alignLoop_nil_left _ _
    · subst h
      have : sortByT [] = [] := rfl
      rw [alignPriceSeries, this, alignLoop_nil_right]
  · have hstrict := alignLoop_ts_strict (h1.length + h2.length)
      (sortByT h1) (sortByT h2) (sortByT_strict h1 hn1) (sortByT_strict h2 hn2)
    exact hstrict.1.imp (fun h => ne_of_lt h)

/-- C7 counterexample: with a repeated timestamp 0 in both inputs the
matched-timestamp output is `[0, 0]`, so a timestamp does appear twice,
contradicting the unconditional no-duplicate clause of the claim. -/
theorem alignPriceSeries_dup_ts_cex :
    ¬ (alignPriceSeries [⟨0, 0⟩, ⟨0, 0⟩] [⟨0, 0⟩, ⟨0, 0⟩]).2.2.Nodup := by
  have h : (alignPriceSeries [⟨0, 0⟩, ⟨0, 0⟩] [⟨0, 0⟩, ⟨0, 0⟩]).2.2 = [0, 0] := rfl
  rw [h]
  decide

/-- C7 witness: the amended theorem applied at concrete inputs with
distinct timestamps (and at an empty first series). -/
theorem alignPriceSeries_shape_witness :
    (([⟨0, (1 : ℝ)⟩, ⟨7200, 2⟩] : List PricePoint).map (fun q => q.t)).Nodup ∧
    (([⟨0, (3 : ℝ)⟩, ⟨7200, 4⟩] : List PricePoint).map (fun q => q.t)).Nodup ∧
    (alignPriceSeries [⟨0, (1 : ℝ)⟩, ⟨7200, 2⟩] [⟨0, (3 : ℝ)⟩, ⟨7200, 4⟩]).2.2.Nodup ∧
    alignPriceSeries ([] : List PricePoint) [⟨0, (3 : ℝ)⟩] = ([], [], []) ∧
    (alignPriceSeries [⟨0, (1 : ℝ)⟩, ⟨7200, 2⟩] [⟨0, (3 : ℝ)⟩, ⟨7200, 4⟩]).1.length =
      (alignPriceSeries [⟨0, (1 : ℝ)⟩, ⟨7200, 2⟩] [⟨0, (3 : ℝ)⟩, ⟨7200, 4⟩]).2.1.length := by
  refine ⟨by decide, by decide,
    alignPriceSeries_shape.2.2 _ _ (by decide) (by decide),
    alignPriceSeries_shape.2.1 _ _ (Or.inl rfl),
    (alignPriceSeries_shape.1 _ _).1⟩

/-! ## Propagator lemmas (claim C8) -/

lemma clampProb_mem (p : ℝ) : 1/100 ≤ clampProb p ∧ clampProb p ≤ 99/100 := by
  constructor
  · exact le_max_left _ _
  · exact max_le (by norm_num) (min_le_left _ _)

/-- The frame invariant the propagation loop maintains relative to the
sorted input list: markets and layers are untouched, and every position
is either untouched or a recomputed non-trigger position with incoming
edges whose new predicted probability is clamped. -/
def PropFrame (edges : List CausalLink) (sorted st : List SimulationNode) : Prop :=
  st.length = sorted.length ∧
  ∀ i : ℕ,
    (st.getD i defaultNode).market = (sorted.getD i defaultNode).market ∧
    (st.getD i defaultNode).layer = (sorted.getD i defaultNode).layer ∧
    (st.getD i defaultNode = sorted.getD i defaultNode ∨
      ((sorted.getD i defaultNode).layer ≠ 0 ∧
        edges.filter (fun e => e.targetMarketId ==
          (sorted.getD i defaultNode).market.id) ≠ [] ∧
        1/100 ≤ (st.getD i defaultNode).predictedProbability ∧
        (st.getD i defaultNode).predictedProbability ≤ 99/100)) ∧
    ((st.getD i defaultNode).predictedProbability =
        (sorted.getD i defaultNode).predictedProbability ∨
      (1/100 ≤ (st.getD i defaultNode).predictedProbability ∧
        (st.getD i defaultNode).predictedProbability ≤ 99/100))

lemma PropFrame_set (edges : List CausalLink) (sorted st : List SimulationNode)
    (i : ℕ) (x : SimulationNode) (hP : PropFrame edges sorted st)
    (hlen : i < st.length)
    (hm : x.market = (st.getD i defaultNode).market)
    (hl : x.layer = (st.getD i defaultNode).layer)
    (hL : (st.getD i defaultNode).layer ≠ 0)
    (hinc : edges.filter (fun e => e.targetMarketId ==
      (st.getD i defaultNode).market.id) ≠ [])
    (hp1 : 1/100 ≤ x.predictedProbability)
    (hp2 : x.predictedProbability ≤ 99/100) :
    PropFrame edges sorted (st.set i x) := by
  have hmarket := (hP.2 i).1
  have hlayer := (hP.2 i).2.1
  constructor
  · rw [List.length_set]
    exact hP.1
  · intro j
    by_cases hij : i = j
    · subst hij
      have hset : (st.set i x).getD i defaultNode = x := by
        rw [List.getD_eq_getElem?_getD, List.getElem?_set_self (by simpa using hlen)]
        rfl
      rw [hset]
      refine ⟨hm.trans hmarket, hl.trans hlayer, ?_, Or.inr ⟨hp1, hp2⟩⟩
      right
      refine ⟨by rw [← hlayer]; exact hL, ?_, hp1, hp2⟩
      rw [← hmarket]
      exact hinc
    · have hset : (st.set i x).getD j defaultNode = st.getD j defaultNode := by
        rw [List.getD_eq_getElem?_getD, List.getElem?_set_ne hij,
          List.getD_eq_getElem?_getD]
      rw [hset]
      exact hP.2 j

lemma propagateStep_frame (edges : List CausalLink)
    (sorted st : List SimulationNode) (i : ℕ)
    (hP : PropFrame edges sorted st)
    (hL : (st.getD i defaultNode).layer ≠ 0) :
    PropFrame edges sorted (propagateStep edges st i) := by
  rw [propagateStep]
  cases hgi : st.get? i with
  | none => exact hP
  | some node =>
    have hlen : i < st.length := by
      by_contra hge
      rw [List.get?_eq_none.mpr (le_of_not_lt hge)] at hgi
      exact Option.noConfusion hgi
    have hnode : node = st.getD i defaultNode := by
      rw [List.getD_eq_getElem?_getD, ← List.get?_eq_getElem?, hgi]
      rfl
    simp only []
    split
    · exact hP
    · split
      · refine PropFrame_set edges sorted st i _ hP hlen (by rw [hnode]) (by rw [hnode])
          hL ?_ (clampProb_mem _).1 (clampProb_mem _).2
        rw [← hnode]
        assumption
      · exact hP

lemma propFold_inner (edges : List CausalLink) (sorted : List SimulationNode)
    (layer : ℕ) (hlayer : 1 ≤ layer) :
    ∀ (idxs : List ℕ) (st : List SimulationNode), PropFrame edges sorted st →
      PropFrame edges sorted (idxs.foldl (fun st2 i =>
        if (st2.getD i defaultNode).layer = layer then propagateStep edges st2 i
        else st2) st) := by
  intro idxs
  induction idxs with
  | nil => intro st hP; exact hP
  | cons i rest ih =>
    intro st hP
    rw [List.foldl_cons]
    by_cases hc : (st.getD i defaultNode).layer = layer
    · rw [if_pos hc]
      exact ih _ (propagateStep_frame edges sorted st i hP (by omega))
    · rw [if_neg hc]
      exact ih st hP

lemma propFold_outer (edges : List CausalLink) (sorted : List SimulationNode) :
    ∀ (layers : List ℕ), (∀ L ∈ layers, 1 ≤ L) →
      ∀ st : List SimulationNode, PropFrame edges sorted st →
        PropFrame edges sorted (layers.foldl (fun st layer =>
          (List.range st.length).foldl (fun st2 i =>
            if (st2.getD i defaultNode).layer = layer then propagateStep edges st2 i
            else st2) st) st) := by
  intro layers
  induction layers with
  | nil => intro _ st hP; exact hP
  | cons L rest ih =>
    intro hmem st hP
    rw [List.foldl_cons]
    exact ih (fun x hx => hmem x (List.mem_cons_of_mem L hx)) _
      (propFold_inner edges sorted L (hmem L (List.mem_cons_self L rest)) _ st hP)

lemma propagateProbabilities_propFrame (nodes : List SimulationNode)
    (edges : List CausalLink) :
    PropFrame edges (sortNodesByLayer nodes) (propagateProbabilities nodes edges) := by
  rw [propagateProbabilities]
  refine propFold_outer edges (sortNodesByLayer nodes) _ ?_ _ ?_
  · intro L hL
    rcases List.mem_range'.mp hL with ⟨k, _, hk⟩
    omega
  · exact ⟨rfl, fun i => ⟨rfl, rfl, Or.inl rfl, Or.inl rfl⟩⟩

/-- C8 (confirmed): after propagation, every layer-0 position and every
position whose market has no incoming edge is returned unchanged (same
record, hence same predicted probability, probability change, percent
change and impact level), and every position's predicted probability is
either its prior value or lies in the clamped interval `[0.01, 0.99]`. -/
theorem propagateProbabilities_frame (nodes : List SimulationNode)
    (edges : List CausalLink) (i : ℕ) :
    (((sortNodesByLayer nodes).getD i defaultNode).layer = 0 →
      (propagateProbabilities nodes edges).getD i defaultNode =
        (sortNodesByLayer nodes).getD i defaultNode) ∧
    (edges.filter (fun e => e.targetMarketId ==
        ((sortNodesByLayer nodes).getD i defaultNode).market.id) = [] →
      (propagateProbabilities nodes edges).getD i defaultNode =
        (sortNodesByLayer nodes).getD i defaultNode) ∧
    (((propagateProbabilities nodes edges).getD i defaultNode).predictedProbability =
        ((sortNodesByLayer nodes).getD i defaultNode).predictedProbability ∨
      (1/100 ≤ ((propagateProbabilities nodes edges).getD i defaultNode).predictedProbability ∧
        ((propagateProbabilities nodes edges).getD i defaultNode).predictedProbability ≤ 99/100)) := by
  have hP := propagateProbabilities_propFrame nodes edges
  have hi := hP.2 i
  refine ⟨fun h0 => ?_, fun hempty => ?_, hi.2.2.2⟩
  · rcases hi.2.2.1 with h | h
    · exact h
    · exact absurd h0 h.1
  · rcases hi.2.2.1 with h | h
    · exact h
    · exact absurd hempty h.2.1

/-- A concrete trigger node used by the propagation witness. -/
def wNodeT : SimulationNode :=
  { market := { id := "T", question := "t", outcomes := ["Yes"],
                outcomePrices := [1/5], tokenId := none },
    currentProbability := 1/5, predictedProbability := 1,
    probabilityChange := 4/5, percentChange := 100, layer := 0,
    impactLevel := "high" }

/-- A concrete layer-1 node used by the propagation witness. -/
def wNodeA : SimulationNode :=
  { market := { id := "A", question := "a", outcomes := ["Yes"],
                outcomePrices := [3/10], tokenId := none },
    currentProbability := 3/10, predictedProbability := 7/10,
    probabilityChange := 2/5, percentChange := 400/3, layer := 1,
    impactLevel := "high" }

/-- A concrete edge used by the propagation witness. -/
def wEdge : CausalLink :=
  { sourceMarketId := "T", targetMarketId := "A", strength := 1/2,
    direction := "increase", timelag := "immediate",
    confidenceLevel := "HIGH", llmGenerated := false,
    historicalCorrelation := none }

/-- C8 witness: the theorem applied at a concrete two-node graph — the
layer-0 position is returned unchanged, the zero-incoming-edge position
is returned unchanged, and the clamp disjunct holds at the updated
position. -/
theorem propagateProbabilities_frame_witness :
    (((sortNodesByLayer [wNodeT, wNodeA]).getD 0 defaultNode).layer = 0 ∧
      (propagateProbabilities [wNodeT, wNodeA] [wEdge]).getD 0 defaultNode =
        (sortNodesByLayer [wNodeT, wNodeA]).getD 0 defaultNode) ∧
    ([wEdge].filter (fun e => e.targetMarketId ==
        ((sortNodesByLayer [wNodeT, wNodeA]).getD 0 defaultNode).market.id) = [] ∧
      (propagateProbabilities [wNodeT, wNodeA] [wEdge]).getD 0 defaultNode =
        (sortNodesByLayer [wNodeT, wNodeA]).getD 0 defaultNode) ∧
    (((propagateProbabilities [wNodeT, wNodeA] [wEdge]).getD 1 defaultNode).predictedProbability =
        ((sortNodesByLayer [wNodeT, wNodeA]).getD 1 defaultNode).predictedProbability ∨
      (1/100 ≤ ((propagateProbabilities [wNodeT, wNodeA] [wEdge]).getD 1 defaultNode).predictedProbability ∧
        ((propagateProbabilities [wNodeT, wNodeA] [wEdge]).getD 1 defaultNode).predictedProbability ≤ 99/100)) := by
  have hlayer : ((sortNodesByLayer [wNodeT, wNodeA]).getD 0 defaultNode).layer = 0 := rfl
  have hfil : [wEdge].filter (fun e => e.targetMarketId ==
      ((sortNodesByLayer [wNodeT, wNodeA]).getD 0 defaultNode).market.id) = [] := rfl
  exact ⟨⟨hlayer, (propagateProbabilities_frame [wNodeT, wNodeA] [wEdge] 0).1 hlayer⟩,
    ⟨hfil, (propagateProbabilities_frame [wNodeT, wNodeA] [wEdge] 0).2.1 hfil⟩,
    (propagateProbabilities_frame [wNodeT, wNodeA] [wEdge] 1).2.2⟩

/-! ## Layered Graph Builder: invariant infrastructure (claims C1-C5, C10) -/

/-- The layer of the first node carrying a given market id, if any. -/
def layerOfId (nodes : List SimulationNode) (id : String) : Option ℕ :=
  (nodes.find? (fun n => n.market.id == id)).map (fun n => n.layer)

/-- What the builder guarantees about every node it creates: the node is
either the trigger node itself, or a non-trigger node at a positive
layer whose market cleared the correlation gate and whose predicted
probability was computed from the historical magnitude and the
collaborator's claimed direction, then clamped. -/
def NodeFact (env : Env) (triggerMarket : Market) (triggerOutcome : String)
    (n : SimulationNode) : Prop :=
  n = triggerNodeOf triggerMarket triggerOutcome ∨
  (n.market.id ≠ triggerMarket.id ∧ 1 ≤ n.layer ∧
    20/100 ≤ |histCorrOf env triggerMarket n.market| ∧
    ∃ (cand : CausalResult) (parent : Market) (pool : List Market),
      cand ∈ env.llm parent triggerOutcome pool ∧
      cand.marketId = n.market.id ∧ 5/10 ≤ cand.strength ∧
      n.predictedProbability = clampProb (n.currentProbability +
        (if cand.impactDirection = "increase" then (1 : ℝ) else -1) *
          (|histCorrOf env triggerMarket n.market| *
            triggerShock triggerMarket triggerOutcome * (1/2))))

/-- What the builder guarantees about every edge it creates: both
endpoints have nodes, the target is a non-trigger market that cleared
the gate, the strength is the mean of the correlation magnitude and the
claimed strength of the generator candidate the edge originates from,
the recorded direction is the sign of the historical correlation, and
the target layer is one below the source layer. -/
def EdgeFact (env : Env) (triggerMarket : Market) (triggerOutcome : String)
    (nodes : List SimulationNode) (e : CausalLink) : Prop :=
  (∃ n ∈ nodes, n.market.id = e.sourceMarketId) ∧
  (∃ n ∈ nodes, n.market.id = e.targetMarketId ∧
    n.market.id ≠ triggerMarket.id ∧
    20/100 ≤ |histCorrOf env triggerMarket n.market| ∧
    (∃ (cand : CausalResult) (parent : Market) (pool : List Market),
      cand ∈ env.llm parent triggerOutcome pool ∧
      cand.marketId = e.targetMarketId ∧ 5/10 ≤ cand.strength ∧
      e.strength =
        (|histCorrOf env triggerMarket n.market| + cand.strength) / 2) ∧
    e.direction = (if 0 < histCorrOf env triggerMarket n.market
      then "increase" else "decrease")) ∧
  (∃ L, layerOfId nodes e.sourceMarketId = some L ∧
    layerOfId nodes e.targetMarketId = some (L + 1))

/-- What survives validation, filtering, sorting and truncation: a
data-backed result that originates from one generator candidate and
whose stored correlation is the market's historical correlation. -/
def GoodResult (env : Env) (triggerMarket : Market) (triggerOutcome : String)
    (availableMarkets : List Market) (pool : List Market) (current : Market)
    (v : ValidatedResult) : Prop :=
  v.hasHistoricalData = true ∧
  ∃ r : CausalResult, r ∈ env.llm current triggerOutcome pool ∧
    v.marketId = r.marketId ∧ v.impactDirection = r.impactDirection ∧
    5/10 ≤ r.strength ∧
    ∃ c : ℝ, v.correlation = some c ∧ 20/100 ≤ |c| ∧
      v.strength = (|c| + r.strength) / 2 ∧
      ∀ market, List.find? (fun m => m.id == v.marketId) availableMarkets =
        some market → c = histCorrOf env triggerMarket market

/-- The part of the builder invariant that also holds at every
intermediate state inside a batch (between two node admissions). -/
structure CoreInv (env : Env) (triggerMarket : Market) (triggerOutcome : String)
    (st : BuildState) : Prop where
  nodup : (st.nodes.map (fun n => n.market.id)).Nodup
  proc : ∀ n ∈ st.nodes, n.market.id ∈ st.processed
  trig_mem : triggerNodeOf triggerMarket triggerOutcome ∈ st.nodes
  trig_proc : triggerMarket.id ∈ st.processed
  node_fact : ∀ n ∈ st.nodes, NodeFact env triggerMarket triggerOutcome n
  layer_le : ∀ n ∈ st.nodes, n.layer ≤ 3
  edge_fact : ∀ e ∈ st.edges, EdgeFact env triggerMarket triggerOutcome st.nodes e
  queue_nodup : (st.queue.map (fun q => q.1.id)).Nodup
  queue_proc : ∀ q ∈ st.queue, q.1.id ∈ st.processed
  queue_node : ∀ q ∈ st.queue, ∃ n ∈ st.nodes, n.market.id = q.1.id ∧ n.layer = q.2
  queue_fresh : ∀ q ∈ st.queue,
    st.edges.filter (fun e => e.sourceMarketId == q.1.id) = []

/-- The invariant every builder state between loop iterations
satisfies. -/
structure BuildInv (env : Env) (triggerMarket : Market) (triggerOutcome : String)
    (st : BuildState) extends CoreInv env triggerMarket triggerOutcome st : Prop where
  layer1 : (st.nodes.filter (fun n => n.layer == 1)).length ≤ 3
  fanout : ∀ s : String, st.edges.filter (fun e => e.sourceMarketId == s) = [] ∨
    ∃ L, (∀ e ∈ st.edges.filter (fun e => e.sourceMarketId == s),
        layerOfId st.nodes e.targetMarketId = some (L + 1)) ∧
      (st.edges.filter (fun e => e.sourceMarketId == s)).length ≤
        getMaxNodesForLayer (L + 1)
  queue_shape : (∀ q ∈ st.queue, 1 ≤ q.2) ∨
    (st.queue = [(triggerMarket, 0)] ∧ st.edges = [] ∧
      st.nodes.filter (fun n => n.layer == 1) = [])

/-- The invariant maintained while one frontier market's admitted
results are folded in. -/
structure BatchInv (env : Env) (triggerMarket : Market) (triggerOutcome : String)
    (current : Market) (curLayer : ℕ) (st : BuildState)
    extends CoreInv env triggerMarket triggerOutcome st : Prop where
  cur_node : ∃ n ∈ st.nodes, n.market.id = current.id ∧ n.layer = curLayer
  cur_proc : current.id ∈ st.processed
  queue_ne_cur : ∀ q ∈ st.queue, q.1.id ≠ current.id

lemma layerOfId_append_left (nodes nn : List SimulationNode) (id : String)
    (L : ℕ) (h : layerOfId nodes id = some L) :
    layerOfId (nodes ++ nn) id = some L := by
  unfold layerOfId at h ⊢
  cases hf : List.find? (fun n => n.market.id == id) nodes with
  | none => rw [hf] at h; exact absurd h (by simp)
  | some n =>
    rw [List.find?_append, hf]
    rw [hf] at h
    exact h

lemma layerOfId_fresh (nodes : List SimulationNode) (node : SimulationNode)
    (h : node.market.id ∉ nodes.map (fun n => n.market.id)) :
    layerOfId (nodes ++ [node]) node.market.id = some node.layer := by
  unfold layerOfId
  have hnone : List.find? (fun n => n.market.id == node.market.id) nodes = none := by
    rw [List.find?_eq_none]
    intro x hx hc
    have hmem : x.market.id ∈ List.map (fun n => n.market.id) nodes :=
      List.mem_map_of_mem (fun n => n.market.id) hx
    rw [beq_iff_eq.mp hc] at hmem
    exact h hmem
  rw [List.find?_append, hnone]
  simp [List.find?]

lemma insertDescBy_perm (x : ValidatedResult) (l : List ValidatedResult) :
    List.Perm (insertDescBy x l) (x :: l) := by
  induction l with
  | nil => simp [insertDescBy]
  | cons y ys ih =>
    rw [insertDescBy]
    split_ifs with h
    · exact (ih.cons y).trans (List.Perm.swap x y ys)
    · rfl

lemma sortDescBy_perm (l : List ValidatedResult) :
    List.Perm (sortDescBy l) l := by
  induction l with
  | nil => simp [sortDescBy]
  | cons x xs ih => exact (insertDescBy_perm x (sortDescBy xs)).trans (ih.cons x)

lemma foldl_validate_mem (env : Env) (trigHist : List PricePoint)
    (avail : List Market) (processed : List String) :
    ∀ (rs : List CausalResult) (acc : List ValidatedResult) (v : ValidatedResult),
      v ∈ rs.foldl (fun acc r =>
        match validateCandidate env trigHist avail processed r with
        | some w => acc ++ [w]
        | none => acc) acc →
      v ∈ acc ∨ ∃ r ∈ rs, validateCandidate env trigHist avail processed r = some v := by
  intro rs
  induction rs with
  | nil => intro acc v hv; exact Or.inl hv
  | cons r rest ih =>
    intro acc v hv
    rw [List.foldl_cons] at hv
    cases hval : validateCandidate env trigHist avail processed r with
    | none =>
      rw [hval] at hv
      rcases ih _ _ hv with h | ⟨r2, hr2, he⟩
      · exact Or.inl h
      · exact Or.inr ⟨r2, List.mem_cons_of_mem _ hr2, he⟩
    | some w =>
      rw [hval] at hv
      rcases ih _ _ hv with h | ⟨r2, hr2, he⟩
      · rcases List.mem_append.mp h with h | h
        · exact Or.inl h
        · right
          refine ⟨r, List.mem_cons_self r rest, ?_⟩
          rw [hval, List.mem_singleton.mp h]
      · exact Or.inr ⟨r2, List.mem_cons_of_mem _ hr2, he⟩

lemma validateCandidate_hist_spec (env : Env) (trigHist : List PricePoint)
    (avail : List Market) (processed : List String) (r : CausalResult)
    (v : ValidatedResult)
    (h : validateCandidate env trigHist avail processed r = some v)
    (hh : v.hasHistoricalData = true) :
    ∃ market, List.find? (fun m => m.id == r.marketId) avail = some market ∧
      market.id ∉ processed ∧
      v.marketId = r.marketId ∧ v.impactDirection = r.impactDirection ∧
      5/10 ≤ r.strength ∧
      ∃ c : ℝ, v.correlation = some c ∧ 20/100 ≤ |c| ∧
        v.strength = (|c| + r.strength) / 2 ∧
        ∀ trig : Market, trigHist = trigHistOf env trig →
          c = histCorrOf env trig market := by
  rw [validateCandidate] at h
  cases hf : List.find? (fun m => m.id == r.marketId) avail with
  | none => rw [hf] at h; exact absurd h (by simp)
  | some market =>
    rw [hf] at h
    simp only [] at h
    by_cases hproc : market.id ∈ processed
    · rw [if_pos hproc] at h; exact absurd h (by simp)
    · rw [if_neg hproc] at h
      cases htok : extractTokenId market with
      | none =>
        rw [htok] at h
        simp only [] at h
        have hv := Option.some.inj h
        rw [← hv] at hh
        exact absurd hh (by simp [downgradeResult])
      | some tok =>
        rw [htok] at h
        simp only [] at h
        by_cases h10 : trigHist.length < 10
        · rw [if_pos h10] at h
          have hv := Option.some.inj h
          rw [← hv] at hh
          exact absurd hh (by simp [downgradeResult])
        · rw [if_neg h10] at h
          by_cases hm10 : (env.priceHistory tok).length < 10
          · rw [if_pos hm10] at h
            have hv := Option.some.inj h
            rw [← hv] at hh
            exact absurd hh (by simp [downgradeResult])
          · rw [if_neg hm10] at h
            by_cases ha10 : (alignPriceSeries trigHist (env.priceHistory tok)).1.length < 10
            · rw [if_pos ha10] at h
              have hv := Option.some.inj h
              rw [← hv] at hh
              exact absurd hh (by simp [downgradeResult])
            · rw [if_neg ha10] at h
              set c := calculateCorrelation
                (alignPriceSeries trigHist (env.priceHistory tok)).1
                (alignPriceSeries trigHist (env.priceHistory tok)).2.1 with hc
              by_cases hgate : 20/100 ≤ |c| ∧ 5/10 ≤ r.strength
              · rw [if_pos hgate] at h
                have hv := Option.some.inj h
                refine ⟨market, rfl, hproc, ?_, ?_, hgate.2, c, ?_, hgate.1, ?_, ?_⟩
                · rw [← hv]
                · rw [← hv]
                · rw [← hv]
                · rw [← hv]
                · intro trig htr
                  rw [histCorrOf, htok, ← htr, hc]
              · rw [if_neg hgate] at h
                exact absurd h (by simp)

lemma validateCandidate_gives_good (env : Env) (triggerMarket : Market)
    (triggerOutcome : String) (availableMarkets : List Market)
    (processed : List String) (pool : List Market) (current : Market)
    (r : CausalResult) (v : ValidatedResult)
    (hr : r ∈ env.llm current triggerOutcome pool)
    (h : validateCandidate env (trigHistOf env triggerMarket) availableMarkets
      processed r = some v)
    (hh : v.hasHistoricalData = true) :
    GoodResult env triggerMarket triggerOutcome availableMarkets pool current v := by
  obtain ⟨market, hf, _, hmid, hdir, hstr, c, hcorr, hgate, hs, hcv⟩ :=
    validateCandidate_hist_spec env (trigHistOf env triggerMarket)
      availableMarkets processed r v h hh
  refine ⟨hh, r, hr, hmid, hdir, hstr, c, hcorr, hgate, hs, ?_⟩
  intro market2 hf2
  rw [hmid] at hf2
  rw [hf2] at hf
  rw [Option.some.inj hf]
  exact hcv triggerMarket rfl

lemma layerOfId_of_mem_nodup (nodes : List SimulationNode)
    (hnodup : (nodes.map (fun n => n.market.id)).Nodup)
    (n : SimulationNode) (hn : n ∈ nodes) (id : String)
    (hid : n.market.id = id) : layerOfId nodes id = some n.layer := by
  induction nodes with
  | nil => cases hn
  | cons hd tl ih =>
    rw [List.map_cons, List.nodup_cons] at hnodup
    by_cases hh : hd.market.id = id
    · have hfind : List.find? (fun n => n.market.id == id) (hd :: tl) = some hd :=
        List.find?_cons_of_pos _ (by simp [hh])
      rw [layerOfId, hfind]
      rcases List.mem_cons.mp hn with he | ht
      · rw [he]
        rfl
      · exfalso
        apply hnodup.1
        have hmem : n.market.id ∈ List.map (fun n => n.market.id) tl :=
          List.mem_map_of_mem (fun n => n.market.id) ht
        rw [hid, ← hh] at hmem
        exact hmem
    · have hfind : List.find? (fun n => n.market.id == id) (hd :: tl) =
          List.find? (fun n => n.market.id == id) tl :=
        List.find?_cons_of_neg _ (by simp [hh])
      rw [layerOfId, hfind]
      rcases List.mem_cons.mp hn with he | ht
      · exact absurd (he ▸ hid) hh
      · have := ih hnodup.2 ht
        rw [layerOfId] at this
        exact this

lemma addedNode_pred (triggerMarket : Market) (triggerOutcome : String)
    (market : Market) (currentLayer : ℕ) (r : ValidatedResult) (c0 : ℝ)
    (hh : r.hasHistoricalData = true) (hcorr : r.correlation = some c0)
    (hc0 : c0 ≠ 0) :
    (addedNode triggerMarket triggerOutcome market currentLayer r).predictedProbability =
      clampProb (priceAtOr market.outcomePrices 0 (1/2) +
        (if r.impactDirection = "increase" then (1 : ℝ) else -1) *
          (|c0| * triggerShock triggerMarket triggerOutcome * (1/2))) := by
  simp only [addedNode, hcorr, Option.getD_some]
  rw [if_pos (show r.hasHistoricalData = true ∧ c0 ≠ 0 from ⟨hh, hc0⟩)]

lemma addedEdge_direction (market : Market) (currentId : String)
    (trigHistLength : ℕ) (r : ValidatedResult) (c0 : ℝ)
    (hh : r.hasHistoricalData = true) (hcorr : r.correlation = some c0)
    (hc0 : c0 ≠ 0) :
    (addedEdge market currentId trigHistLength r).direction =
      (if 0 < c0 then "increase" else "decrease") := by
  simp only [addedEdge, hcorr, Option.getD_some]
  rw [if_pos (show r.hasHistoricalData = true ∧ c0 ≠ 0 from ⟨hh, hc0⟩)]

lemma addOne_batchInv (env : Env) (triggerMarket : Market)
    (triggerOutcome : String) (availableMarkets : List Market)
    (params : PropagationParams) (thl : ℕ) (current : Market) (curLayer : ℕ)
    (pool : List Market) (hcur3 : curLayer + 1 ≤ 3) (st : BuildState)
    (v : ValidatedResult)
    (hB : BatchInv env triggerMarket triggerOutcome current curLayer st)
    (hgood : GoodResult env triggerMarket triggerOutcome availableMarkets
      pool current v) :
    BatchInv env triggerMarket triggerOutcome current curLayer
      (addOne triggerMarket triggerOutcome availableMarkets params thl
        current curLayer st v) ∧
    (addOne triggerMarket triggerOutcome availableMarkets params thl
        current curLayer st v = st ∨
      ∃ node edge qtail,
        (addOne triggerMarket triggerOutcome availableMarkets params thl
          current curLayer st v).nodes = st.nodes ++ [node] ∧
        (addOne triggerMarket triggerOutcome availableMarkets params thl
          current curLayer st v).edges = st.edges ++ [edge] ∧
        (addOne triggerMarket triggerOutcome availableMarkets params thl
          current curLayer st v).queue = st.queue ++ qtail ∧
        node.layer = curLayer + 1 ∧
        edge.sourceMarketId = current.id ∧
        layerOfId (st.nodes ++ [node]) edge.targetMarketId = some (curLayer + 1) ∧
        (∀ q ∈ qtail, q.2 = curLayer + 1)) := by
  obtain ⟨hh, r, hr, hmid, hdir, hstr, c0, hcorr, hgate, hs, hcv⟩ := hgood
  rw [addOne]
  cases hfind : List.find? (fun m => m.id == v.marketId) availableMarkets with
  | none => exact ⟨hB, Or.inl rfl⟩
  | some market =>
    simp only []
    by_cases hproc : market.id ∈ st.processed
    · rw [if_pos hproc]
      exact ⟨hB, Or.inl rfl⟩
    · rw [if_neg hproc]
      have hpm := List.find?_some hfind
      have hmkid : market.id = v.marketId := by simpa using hpm
      have hc0 : c0 ≠ 0 := by
        intro h0
        rw [h0] at hgate
        norm_num at hgate
      have hchist : c0 = histCorrOf env triggerMarket market := hcv market hfind
      have hfreshnode : market.id ∉ st.nodes.map (fun n => n.market.id) := by
        intro hmem
        rcases List.mem_map.mp hmem with ⟨n, hn, he⟩
        exact hproc (he ▸ hB.proc n hn)
      have hne_trig : market.id ≠ triggerMarket.id := by
        intro he
        exact hproc (he ▸ hB.trig_proc)
      have hne_cur : market.id ≠ current.id := by
        intro he
        exact hproc (he ▸ hB.cur_proc)
      have hfreshqueue : market.id ∉ st.queue.map (fun q => q.1.id) := by
        intro hmem
        rcases List.mem_map.mp hmem with ⟨q, hq, he⟩
        exact hproc (he ▸ hB.queue_proc q hq)
      set node := addedNode triggerMarket triggerOutcome market curLayer v with hnode
      set edge := addedEdge market current.id thl v with hedge
      have hnodemk : node.market = market := rfl
      have hnodelayer : node.layer = curLayer + 1 := rfl
      have hedgesrc : edge.sourceMarketId = current.id := rfl
      have hedgetgt : edge.targetMarketId = market.id := rfl
      have htgtlayer : layerOfId (st.nodes ++ [node]) edge.targetMarketId =
          some (curLayer + 1) := by
        rw [hedgetgt, ← hnodemk, ← hnodelayer]
        exact layerOfId_fresh st.nodes node (by rw [hnodemk]; exact hfreshnode)
      have hnodefact : NodeFact env triggerMarket triggerOutcome node := by
        right
        refine ⟨by rw [hnodemk]; exact hne_trig, by rw [hnodelayer]; omega,
          by rw [hnodemk, ← hchist]; exact hgate, r, current, pool, hr,
          by rw [hnodemk, hmkid, hmid], hstr, ?_⟩
        have hpred := addedNode_pred triggerMarket triggerOutcome market
          curLayer v c0 hh hcorr hc0
        rw [← hnode] at hpred
        rw [hpred, hnodemk, ← hchist, ← hdir]
        rfl
      have hmem_ext : ∀ n ∈ st.nodes, n ∈ st.nodes ++ [node] :=
        fun n hn => List.mem_append_left _ hn
      have hlayer_ext : ∀ (id : String) (L : ℕ),
          layerOfId st.nodes id = some L →
            layerOfId (st.nodes ++ [node]) id = some L :=
        fun id L h => layerOfId_append_left st.nodes [node] id L h
      have hedgefact_ext : ∀ e ∈ st.edges,
          EdgeFact env triggerMarket triggerOutcome (st.nodes ++ [node]) e := by
        intro e he
        obtain ⟨⟨ns, hns, hnse⟩, ⟨nt, hnt, hnte⟩, L, hsrc, htgt⟩ := hB.edge_fact e he
        exact ⟨⟨ns, hmem_ext ns hns, hnse⟩, ⟨nt, hmem_ext nt hnt, hnte⟩,
          L, hlayer_ext _ L hsrc, hlayer_ext _ (L + 1) htgt⟩
      obtain ⟨nc, hnc, hnce, hncl⟩ := hB.cur_node
      have hsrclayer : layerOfId (st.nodes ++ [node]) current.id = some curLayer := by
        have h1 := layerOfId_of_mem_nodup st.nodes hB.nodup nc hnc current.id hnce
        rw [hncl] at h1
        exact hlayer_ext _ _ h1
      have hnewedgefact : EdgeFact env triggerMarket triggerOutcome
          (st.nodes ++ [node]) edge := by
        refine ⟨⟨nc, hmem_ext nc hnc, by rw [hnce, hedgesrc]⟩,
          ⟨node, List.mem_append_right _ (List.mem_singleton_self node),
            by rw [hedgetgt, hnodemk], by rw [hnodemk]; exact hne_trig,
            by rw [hnodemk, ← hchist]; exact hgate,
            ⟨r, current, pool, hr,
              by rw [← hmid, hedgetgt, hmkid], hstr, ?_⟩, ?_⟩,
          curLayer, by rw [hedgesrc]; exact hsrclayer, htgtlayer⟩
        · have hstre : edge.strength = v.strength := rfl
          rw [hstre, hs, hnodemk, ← hchist]
        · have hd := addedEdge_direction market current.id thl v c0 hh hcorr hc0
          rw [← hedge] at hd
          rw [hd, hnodemk, ← hchist]
      have hfilter_single : ∀ qid : String, edge.sourceMarketId ≠ qid →
          List.filter (fun e => e.sourceMarketId == qid) [edge] = [] := by
        intro qid hne
        rw [List.filter_eq_nil_iff]
        intro e he
        rw [List.mem_singleton.mp he]
        simp [hne]
      have hqmem : ∀ q, q ∈ (if 1/2 < v.strength ∧ curLayer + 1 < params.maxDepth
          then st.queue ++ [(market, curLayer + 1)] else st.queue) →
          q ∈ st.queue ∨ q = (market, curLayer + 1) := by
        intro q hq
        split_ifs at hq with hqc
        · rcases List.mem_append.mp hq with h | h
          · exact Or.inl h
          · exact Or.inr (List.mem_singleton.mp h)
        · exact Or.inl hq
      have hdelta : ∃ qtail,
          (if 1/2 < v.strength ∧ curLayer + 1 < params.maxDepth
            then st.queue ++ [(market, curLayer + 1)] else st.queue) =
            st.queue ++ qtail ∧ ∀ q ∈ qtail, q.2 = curLayer + 1 := by
        split_ifs with hqc
        · exact ⟨[(market, curLayer + 1)], rfl,
            fun q hq => by rw [List.mem_singleton.mp hq]⟩
        · exact ⟨[], (List.append_nil st.queue).symm, fun q hq => by cases hq⟩
      obtain ⟨qtail, hqt, hqtl⟩ := hdelta
      refine ⟨⟨⟨?_, ?_, ?_, ?_, ?_, ?_, ?_, ?_, ?_, ?_, ?_⟩, ?_, ?_, ?_⟩,
        Or.inr ⟨node, edge, qtail, rfl, rfl, hqt, hnodelayer, hedgesrc,
          htgtlayer, hqtl⟩⟩
      · -- nodup
        rw [List.map_append, List.map_singleton, List.nodup_append]
        refine ⟨hB.nodup, by simp, ?_⟩
        intro a ha hb
        rw [hnodemk] at hb
        simp only [List.mem_singleton] at hb
        exact hfreshnode (hb ▸ ha)
      · -- proc
        intro n hn
        rcases List.mem_append.mp hn with h | h
        · exact List.mem_append_left _ (hB.proc n h)
        · rw [List.mem_singleton.mp h, hnodemk]
          exact List.mem_append_right _ (List.mem_singleton_self _)
      · exact List.mem_append_left _ hB.trig_mem
      · exact List.mem_append_left _ hB.trig_proc
      · -- node_fact
        intro n hn
        rcases List.mem_append.mp hn with h | h
        · exact hB.node_fact n h
        · rw [List.mem_singleton.mp h]
          exact hnodefact
      · -- layer_le
        intro n hn
        rcases List.mem_append.mp hn with h | h
        · exact hB.layer_le n h
        · rw [List.mem_singleton.mp h, hnodelayer]
          exact hcur3
      · -- edge_fact
        intro e he
        rcases List.mem_append.mp he with h | h
        · exact hedgefact_ext e h
        · rw [List.mem_singleton.mp h]
          exact hnewedgefact
      · -- queue_nodup
        split_ifs with hqc
        · rw [List.map_append, List.map_singleton, List.nodup_append]
          refine ⟨hB.queue_nodup, by simp, ?_⟩
          intro a ha hb
          simp only [List.mem_singleton] at hb
          exact hfreshqueue (hb ▸ ha)
        · exact hB.queue_nodup
      · -- queue_proc
        intro q hq
        rcases hqmem q hq with h | h
        · exact List.mem_append_left _ (hB.queue_proc q h)
        · rw [h]
          exact List.mem_append_right _ (List.mem_singleton_self _)
      · -- queue_node
        intro q hq
        rcases hqmem q hq with h | h
        · obtain ⟨n, hn, he, hl⟩ := hB.queue_node q h
          exact ⟨n, hmem_ext n hn, he, hl⟩
        · exact ⟨node, List.mem_append_right _ (List.mem_singleton_self _),
            by rw [h, hnodemk], by rw [h, hnodelayer]⟩
      · -- queue_fresh
        intro q hq
        rcases hqmem q hq with h | h
        · rw [List.filter_append, hB.queue_fresh q h, List.nil_append]
          exact hfilter_single q.1.id
            (by rw [hedgesrc]; exact fun he => hB.queue_ne_cur q h he.symm)
        · have h1 : st.edges.filter (fun e => e.sourceMarketId == q.1.id) = [] := by
            rw [List.filter_eq_nil_iff]
            intro e he
            obtain ⟨⟨ns, hns, hnse⟩, _, _⟩ := hB.edge_fact e he
            simp only [beq_eq_false_iff_ne, ne_eq, Bool.not_eq_true, beq_eq_false_iff_ne]
            rw [h]
            intro hc
            apply hfreshnode
            rw [← hc, ← hnse]
            exact List.mem_map_of_mem (fun n => n.market.id) hns
          rw [List.filter_append, h1, List.nil_append]
          exact hfilter_single q.1.id
            (by rw [hedgesrc, h]; exact fun he => hne_cur he.symm)
      · -- cur_node
        exact ⟨nc, hmem_ext nc hnc, hnce, hncl⟩
      · -- cur_proc
        exact List.mem_append_left _ hB.cur_proc
      · -- queue_ne_cur
        intro q hq
        rcases hqmem q hq with h | h
        · exact hB.queue_ne_cur q h
        · rw [h]
          exact hne_cur

lemma addOne_foldl_batchInv (env : Env) (triggerMarket : Market)
    (triggerOutcome : String) (availableMarkets : List Market)
    (params : PropagationParams) (thl : ℕ) (current : Market) (curLayer : ℕ)
    (pool : List Market) (hcur3 : curLayer + 1 ≤ 3) :
    ∀ (results : List ValidatedResult) (st : BuildState),
      BatchInv env triggerMarket triggerOutcome current curLayer st →
      (∀ v ∈ results, GoodResult env triggerMarket triggerOutcome
        availableMarkets pool current v) →
      BatchInv env triggerMarket triggerOutcome current curLayer
        (results.foldl (addOne triggerMarket triggerOutcome availableMarkets
          params thl current curLayer) st) ∧
      ∃ nn ne nq,
        (results.foldl (addOne triggerMarket triggerOutcome availableMarkets
          params thl current curLayer) st).nodes = st.nodes ++ nn ∧
        (results.foldl (addOne triggerMarket triggerOutcome availableMarkets
          params thl current curLayer) st).edges = st.edges ++ ne ∧
        (results.foldl (addOne triggerMarket triggerOutcome availableMarkets
          params thl current curLayer) st).queue = st.queue ++ nq ∧
        ne.length ≤ results.length ∧ nn.length = ne.length ∧
        (∀ n ∈ nn, n.layer = curLayer + 1) ∧
        (∀ e ∈ ne, e.sourceMarketId = current.id ∧
          layerOfId (st.nodes ++ nn) e.targetMarketId = some (curLayer + 1)) ∧
        (∀ q ∈ nq, q.2 = curLayer + 1) := by
  intro results
  induction results with
  | nil =>
    intro st hB _
    refine ⟨hB, [], [], [], ?_, ?_, ?_, by simp, rfl, ?_, ?_, ?_⟩
    · exact (List.append_nil _).symm
    · exact (List.append_nil _).symm
    · exact (List.append_nil _).symm
    · intro n hn; cases hn
    · intro e he; cases he
    · intro q hq; cases hq
  | cons v rest ih =>
    intro st hB hgood
    rw [List.foldl_cons]
    obtain ⟨hB1, hstep⟩ := addOne_batchInv env triggerMarket triggerOutcome
      availableMarkets params thl current curLayer pool hcur3 st v
      hB (hgood v (List.mem_cons_self v rest))
    obtain ⟨hBf, nn, ne, nq, h1, h2, h3, hlen, hnnlen, hlayers, hedges, hqs⟩ :=
      ih (addOne triggerMarket triggerOutcome availableMarkets params thl
        current curLayer st v) hB1
        (fun w hw => hgood w (List.mem_cons_of_mem v hw))
    rcases hstep with heq | ⟨node, edge, qtail, hn1, hn2, hn3, hnl, hes, het, hqt⟩
    · rw [heq] at h1 h2 h3 hedges hBf ⊢
      exact ⟨hBf, nn, ne, nq, h1, h2, h3,
        le_trans hlen (by simp), hnnlen, hlayers, hedges, hqs⟩
    · refine ⟨hBf, node :: nn, edge :: ne, qtail ++ nq, ?_, ?_, ?_, ?_, ?_, ?_, ?_, ?_⟩
      · rw [h1, hn1, List.append_assoc]
        rfl
      · rw [h2, hn2, List.append_assoc]
        rfl
      · rw [h3, hn3, List.append_assoc]
      · simp only [List.length_cons]
        omega
      · simp only [List.length_cons]
        omega
      · intro n hn
        rcases List.mem_cons.mp hn with h | h
        · rw [h]; exact hnl
        · exact hlayers n h
      · intro e he
        have hlist : st.nodes ++ node :: nn = (st.nodes ++ [node]) ++ nn := by
          rw [List.append_assoc]
          rfl
        rcases List.mem_cons.mp he with h | h
        · subst h
          refine ⟨hes, ?_⟩
          rw [hlist]
          exact layerOfId_append_left _ nn _ _ het
        · obtain ⟨hsrc, htgt⟩ := hedges e h
          refine ⟨hsrc, ?_⟩
          rw [hlist, ← hn1]
          exact htgt
      · intro q hq
        rcases List.mem_append.mp hq with h | h
        · exact hqt q h
        · exact hqs q h

lemma processOne_builds (env : Env) (triggerMarket : Market)
    (triggerOutcome : String) (availableMarkets : List Market)
    (params : PropagationParams) (current : Market) (curLayer : ℕ)
    (hcur3 : curLayer + 1 ≤ 3) (st : BuildState)
    (hB : BatchInv env triggerMarket triggerOutcome current curLayer st) :
    BatchInv env triggerMarket triggerOutcome current curLayer
      (processOne env triggerMarket triggerOutcome availableMarkets params
        (trigHistOf env triggerMarket) current curLayer st) ∧
    ∃ nn ne nq,
      (processOne env triggerMarket triggerOutcome availableMarkets params
        (trigHistOf env triggerMarket) current curLayer st).nodes =
        st.nodes ++ nn ∧
      (processOne env triggerMarket triggerOutcome availableMarkets params
        (trigHistOf env triggerMarket) current curLayer st).edges =
        st.edges ++ ne ∧
      (processOne env triggerMarket triggerOutcome availableMarkets params
        (trigHistOf env triggerMarket) current curLayer st).queue =
        st.queue ++ nq ∧
      ne.length ≤ getMaxNodesForLayer (curLayer + 1) ∧ nn.length = ne.length ∧
      (∀ n ∈ nn, n.layer = curLayer + 1) ∧
      (∀ e ∈ ne, e.sourceMarketId = current.id ∧
        layerOfId (st.nodes ++ nn) e.targetMarketId = some (curLayer + 1)) ∧
      (∀ q ∈ nq, q.2 = curLayer + 1) := by
  have hpe : processOne env triggerMarket triggerOutcome availableMarkets params
      (trigHistOf env triggerMarket) current curLayer st =
      ((sortDescBy ((((env.llm current triggerOutcome
        (availableMarkets.filter (fun m => !(st.processed.contains m.id)))).foldl
          (fun acc r =>
            match validateCandidate env (trigHistOf env triggerMarket)
              availableMarkets st.processed r with
            | some v => acc ++ [v]
            | none => acc) [])).filter (fun v => v.hasHistoricalData))).take
        (getMaxNodesForLayer (curLayer + 1))).foldl
        (addOne triggerMarket triggerOutcome availableMarkets params
          (trigHistOf env triggerMarket).length current curLayer) st := rfl
  rw [hpe]
  set pool := availableMarkets.filter (fun m => !(st.processed.contains m.id)) with hpool
  set causalResults := env.llm current triggerOutcome pool with hcr
  set validatedResults := causalResults.foldl (fun acc r =>
    match validateCandidate env (trigHistOf env triggerMarket) availableMarkets
      st.processed r with
    | some v => acc ++ [v]
    | none => acc) [] with hvr
  set sortedResults :=
    (sortDescBy (validatedResults.filter (fun v => v.hasHistoricalData))).take
      (getMaxNodesForLayer (curLayer + 1)) with hsr
  have hgoods : ∀ v ∈ sortedResults, GoodResult env triggerMarket triggerOutcome
      availableMarkets pool current v := by
    intro v hv
    have hv1 : v ∈ sortDescBy (validatedResults.filter
        (fun v => v.hasHistoricalData)) := List.take_subset _ _ hv
    have hv2 : v ∈ validatedResults.filter (fun v => v.hasHistoricalData) :=
      (sortDescBy_perm _).mem_iff.mp hv1
    have hv3 : v ∈ validatedResults := List.mem_of_mem_filter hv2
    have hvh : v.hasHistoricalData = true := by
      simpa using List.of_mem_filter hv2
    rw [hvr] at hv3
    rcases foldl_validate_mem env (trigHistOf env triggerMarket)
      availableMarkets st.processed causalResults [] v hv3 with h | ⟨r, hrmem, hval⟩
    · cases h
    · exact validateCandidate_gives_good env triggerMarket triggerOutcome
        availableMarkets st.processed pool current r v (hcr ▸ hrmem) hval hvh
  have hslen : sortedResults.length ≤ getMaxNodesForLayer (curLayer + 1) := by
    rw [hsr]
    exact List.length_take_le _ _
  obtain ⟨hBf, nn, ne, nq, h1, h2, h3, hlen, hnnlen, hlayers, hedges, hqs⟩ :=
    addOne_foldl_batchInv env triggerMarket triggerOutcome availableMarkets
      params (trigHistOf env triggerMarket).length current curLayer pool hcur3
      sortedResults st hB hgoods
  exact ⟨hBf, nn, ne, nq, h1, h2, h3, le_trans hlen hslen, hnnlen,
    hlayers, hedges, hqs⟩

lemma buildLoop_inv (env : Env) (triggerMarket : Market)
    (triggerOutcome : String) (availableMarkets : List Market)
    (params : PropagationParams) :
    ∀ (fuel : ℕ) (st : BuildState),
      BuildInv env triggerMarket triggerOutcome st →
      BuildInv env triggerMarket triggerOutcome
        (buildLoop env triggerMarket triggerOutcome availableMarkets params
          (trigHistOf env triggerMarket) fuel st) := by
  intro fuel
  induction fuel with
  | zero =>
    intro st h
    rw [buildLoop]
    exact h
  | succ fuel ih =>
    intro st hInv
    rw [buildLoop]
    cases hq : st.queue with
    | nil => exact hInv
    | cons head rest =>
      obtain ⟨current, curLayer⟩ := head
      simp only []
      by_cases hc3 : curLayer < 3
      · rw [if_pos hc3]
        apply ih
        have hheadmem : (current, curLayer) ∈ st.queue := by
          rw [hq]
          exact List.mem_cons_self _ _
        have hqmap := hInv.queue_nodup
        rw [hq, List.map_cons, List.nodup_cons] at hqmap
        have hrestmem : ∀ q ∈ rest, q ∈ st.queue := by
          intro q hqr
          rw [hq]
          exact List.mem_cons_of_mem _ hqr
        have hB : BatchInv env triggerMarket triggerOutcome current curLayer
            { st with queue := rest } := by
          refine ⟨⟨hInv.nodup, hInv.proc, hInv.trig_mem, hInv.trig_proc,
            hInv.node_fact, hInv.layer_le, hInv.edge_fact, hqmap.2,
            fun q hqr => hInv.queue_proc q (hrestmem q hqr),
            fun q hqr => hInv.queue_node q (hrestmem q hqr),
            fun q hqr => hInv.queue_fresh q (hrestmem q hqr)⟩,
            hInv.queue_node _ hheadmem, hInv.queue_proc _ hheadmem, ?_⟩
          intro q hqr he
          apply hqmap.1
          rw [← he]
          exact List.mem_map_of_mem (fun q => q.1.id) hqr
        obtain ⟨hBf, nn, ne, nq, h1, h2, h3, hlen, hnnlen, hlayers, hedges, hqs⟩ :=
          processOne_builds env triggerMarket triggerOutcome availableMarkets
            params current curLayer (by omega) { st with queue := rest } hB
        refine ⟨hBf.toCoreInv, ?_, ?_, ?_⟩
        · -- layer1
          rw [h1]
          simp only [List.filter_append, List.length_append]
          rcases hInv.queue_shape with hsh | ⟨hqe, _, hl1⟩
          · have hcl : 1 ≤ curLayer := hsh _ hheadmem
            have hnn : nn.filter (fun n => n.layer == 1) = [] := by
              rw [List.filter_eq_nil_iff]
              intro n hn
              have hlay := hlayers n hn
              simp [hlay]
              omega
            rw [hnn]
            simpa using hInv.layer1
          · rw [hq] at hqe
            injection hqe with hh ht
            injection hh with hcm hcl
            have hlst : ({ st with queue := rest } : BuildState).nodes.filter
                (fun n => n.layer == 1) = [] := hl1
            rw [hlst]
            simp only [List.length_nil, Nat.zero_add]
            calc (nn.filter (fun n => n.layer == 1)).length
                ≤ nn.length := List.length_filter_le _ _
              _ = ne.length := hnnlen
              _ ≤ getMaxNodesForLayer (curLayer + 1) := hlen
              _ ≤ 3 := by rw [hcl]; decide
        · -- fanout
          intro s
          rw [h2, List.filter_append]
          by_cases hs : current.id = s
          · have hold : st.edges.filter (fun e => e.sourceMarketId == s) = [] := by
              rw [← hs]
              exact hInv.queue_fresh _ hheadmem
            have hold2 : ({ st with queue := rest } : BuildState).edges.filter
                (fun e => e.sourceMarketId == s) = [] := hold
            rw [hold2, List.nil_append]
            have hne_filter : ne.filter (fun e => e.sourceMarketId == s) = ne := by
              rw [List.filter_eq_self]
              intro e he
              simp [(hedges e he).1, hs]
            rw [hne_filter]
            right
            refine ⟨curLayer, ?_, hlen⟩
            intro e he
            rw [h1]
            exact (hedges e he).2
          · have hne_filter : ne.filter (fun e => e.sourceMarketId == s) = [] := by
              rw [List.filter_eq_nil_iff]
              intro e he
              have hsrc := (hedges e he).1
              simp [hsrc, hs]
            rw [hne_filter, List.append_nil]
            rcases hInv.fanout s with h | ⟨L, htg, hl⟩
            · left
              exact h
            · right
              refine ⟨L, ?_, hl⟩
              intro e he
              rw [h1]
              exact layerOfId_append_left _ _ _ _ (htg e he)
        · -- queue_shape
          left
          intro q hq2
          rw [h3] at hq2
          rcases List.mem_append.mp hq2 with h | h
          · rcases hInv.queue_shape with hsh | ⟨hqe, _, _⟩
            · exact hsh q (hrestmem q h)
            · rw [hq] at hqe
              injection hqe with hh ht
              rw [ht] at h
              cases h
          · rw [hqs q h]
            omega
      · rw [if_neg hc3]
        exact hInv

lemma initial_inv (env : Env) (triggerMarket : Market) (triggerOutcome : String) :
    BuildInv env triggerMarket triggerOutcome
      (initialState triggerMarket triggerOutcome) := by
  refine ⟨⟨?_, ?_, ?_, ?_, ?_, ?_, ?_, ?_, ?_, ?_, ?_⟩, ?_, ?_, ?_⟩
  · simp [initialState]
  · intro n hn
    rw [List.mem_singleton.mp hn]
    exact List.mem_singleton_self _
  · exact List.mem_singleton_self _
  · exact List.mem_singleton_self _
  · intro n hn
    rw [List.mem_singleton.mp hn]
    exact Or.inl rfl
  · intro n hn
    rw [List.mem_singleton.mp hn]
    exact Nat.zero_le 3
  · intro e he
    cases he
  · simp [initialState]
  · intro q hq
    rw [List.mem_singleton.mp hq]
    exact List.mem_singleton_self _
  · intro q hq
    rw [List.mem_singleton.mp hq]
    exact ⟨triggerNodeOf triggerMarket triggerOutcome,
      List.mem_singleton_self _, rfl, rfl⟩
  · intro q hq
    rfl
  · simp [initialState, triggerNodeOf]
  · intro s
    left
    rfl
  · right
    exact ⟨rfl, rfl, by simp [initialState, triggerNodeOf]⟩

lemma builtState_inv (env : Env) (triggerMarket : Market)
    (triggerOutcome : String) (availableMarkets : List Market)
    (params : PropagationParams) :
    BuildInv env triggerMarket triggerOutcome
      (builtState env triggerMarket triggerOutcome availableMarkets params) :=
  buildLoop_inv env triggerMarket triggerOutcome availableMarkets params _ _
    (initial_inv env triggerMarket triggerOutcome)

lemma scenario_nodes_eq (env : Env) (name description : String)
    (triggerMarket : Market) (triggerOutcome : String)
    (availableMarkets : List Market) (params : PropagationParams) :
    (createSimulationScenario env name description triggerMarket triggerOutcome
      availableMarkets params).nodes =
    (builtState env triggerMarket triggerOutcome availableMarkets params).nodes := rfl

lemma scenario_edges_eq (env : Env) (name description : String)
    (triggerMarket : Market) (triggerOutcome : String)
    (availableMarkets : List Market) (params : PropagationParams) :
    (createSimulationScenario env name description triggerMarket triggerOutcome
      availableMarkets params).edges =
    (builtState env triggerMarket triggerOutcome availableMarkets params).edges := rfl

/-! ## Loop Detector lemmas (claim C10) -/

/-- The step relation of the directed edge set. -/
def edgeRel (edges : List CausalLink) (a b : String) : Prop :=
  ∃ e ∈ edges, e.sourceMarketId = a ∧ e.targetMarketId = b

lemma transGen_rank (edges : List CausalLink) (rank : String → ℕ)
    (hr : ∀ e ∈ edges, rank e.targetMarketId = rank e.sourceMarketId + 1) :
    ∀ a b, Relation.TransGen (edgeRel edges) a b → rank a < rank b := by
  intro a b h
  induction h with
  | single h1 =>
    obtain ⟨e, he, hs, ht⟩ := h1
    have h2 := hr e he
    rw [hs, ht] at h2
    omega
  | tail _ hbc ih =>
    obtain ⟨e, he, hs, ht⟩ := hbc
    have h2 := hr e he
    rw [hs, ht] at h2
    omega

lemma dfsAux_rank (edges : List CausalLink) (rank : String → ℕ)
    (hr : ∀ e ∈ edges, rank e.targetMarketId = rank e.sourceMarketId + 1) :
    ∀ (fuel : ℕ) (nodeId : String) (path : List String) (st : DfsState),
      (∀ x ∈ st.recStack, rank x < rank nodeId) →
      (dfsAux edges fuel nodeId path st).loops = st.loops ∧
      (dfsAux edges fuel nodeId path st).recStack = st.recStack := by
  intro fuel
  induction fuel with
  | zero => intro nodeId path st _; exact ⟨rfl, rfl⟩
  | succ fuel ih =>
    intro nodeId path st hstack
    rw [dfsAux]
    have hfold : ∀ (es : List CausalLink), (∀ e ∈ es, e ∈ edges ∧
        e.sourceMarketId = nodeId) →
        ∀ s : DfsState, s.loops = st.loops → s.recStack = nodeId :: st.recStack →
        ((es.foldl (fun s e =>
          if e.targetMarketId ∈ s.visited then
            (if e.targetMarketId ∈ s.recStack then
              { s with loops := s.loops ++
                  [match (path ++ [nodeId]).findIdx?
                      (fun x => x == e.targetMarketId) with
                   | some i => (path ++ [nodeId]).drop i
                   | none => []] }
            else s)
          else dfsAux edges fuel e.targetMarketId (path ++ [nodeId]) s) s).loops =
            st.loops ∧
        (es.foldl (fun s e =>
          if e.targetMarketId ∈ s.visited then
            (if e.targetMarketId ∈ s.recStack then
              { s with loops := s.loops ++
                  [match (path ++ [nodeId]).findIdx?
                      (fun x => x == e.targetMarketId) with
                   | some i => (path ++ [nodeId]).drop i
                   | none => []] }
            else s)
          else dfsAux edges fuel e.targetMarketId (path ++ [nodeId]) s) s).recStack =
            nodeId :: st.recStack) := by
      intro es
      induction es with
      | nil => intro _ s h1 h2; exact ⟨h1, h2⟩
      | cons e rest ihe =>
        intro hmem s h1 h2
        rw [List.foldl_cons]
        have hee := hmem e (List.mem_cons_self e rest)
        have hrank := hr e hee.1
        rw [hee.2] at hrank
        have hrest : ∀ e ∈ rest, e ∈ edges ∧ e.sourceMarketId = nodeId :=
          fun x hx => hmem x (List.mem_cons_of_mem e hx)
        by_cases hvis : e.targetMarketId ∈ s.visited
        · rw [if_pos hvis]
          have hnotin : e.targetMarketId ∉ s.recStack := by
            rw [h2]
            intro hin
            rcases List.mem_cons.mp hin with h | h
            · rw [h] at hrank
              omega
            · have := hstack _ h
              omega
          rw [if_neg hnotin]
          exact ihe hrest s h1 h2
        · rw [if_neg hvis]
          have hsub := ih e.targetMarketId (path ++ [nodeId]) s (by
            rw [h2]
            intro x hx
            rcases List.mem_cons.mp hx with h | h
            · rw [h]
              omega
            · have := hstack _ h
              omega)
          exact ihe hrest _ (hsub.1.trans h1) (hsub.2.trans h2)
    have hmain := hfold (edges.filter (fun e => e.sourceMarketId == nodeId))
      (fun e he => ⟨List.mem_of_mem_filter he, by
        simpa using List.of_mem_filter he⟩)
      { visited := nodeId :: st.visited, recStack := nodeId :: st.recStack,
        loops := st.loops } rfl rfl
    refine ⟨hmain.1, ?_⟩
    rw [hmain.2]
    exact List.erase_cons_head nodeId st.recStack

lemma detectFeedbackLoops_of_rank (nodes : List SimulationNode)
    (edges : List CausalLink) (rank : String → ℕ)
    (hr : ∀ e ∈ edges, rank e.targetMarketId = rank e.sourceMarketId + 1) :
    detectFeedbackLoops nodes edges = [] := by
  rw [detectFeedbackLoops]
  suffices h : ∀ (ns : List SimulationNode) (st : DfsState), st.loops = [] →
      st.recStack = [] →
      (ns.foldl (fun st n =>
        if n.market.id ∈ st.visited then st
        else dfsAux edges (nodes.length + edges.length + 1) n.market.id [] st)
        st).loops = [] ∧
      (ns.foldl (fun st n =>
        if n.market.id ∈ st.visited then st
        else dfsAux edges (nodes.length + edges.length + 1) n.market.id [] st)
        st).recStack = [] by
    exact (h nodes { visited := [], recStack := [], loops := [] } rfl rfl).1
  intro ns
  induction ns with
  | nil => intro st h1 h2; exact ⟨h1, h2⟩
  | cons n rest ih =>
    intro st h1 h2
    rw [List.foldl_cons]
    by_cases hvis : n.market.id ∈ st.visited
    · rw [if_pos hvis]
      exact ih st h1 h2
    · rw [if_neg hvis]
      have hsub := dfsAux_rank edges rank hr (nodes.length + edges.length + 1)
        n.market.id [] st (by
          rw [h2]
          intro x hx
          cases hx)
      exact ih _ (hsub.1.trans h1) (hsub.2.trans h2)

/-! ## Claim theorems about the builder -/

lemma validateCandidate_lowStrength (env : Env) (trigHist : List PricePoint)
    (avail : List Market) (processed : List String) (r : CausalResult)
    (hstr : r.strength < 5/10) :
    validateCandidate env trigHist avail processed r = none ∨
    ∃ v, validateCandidate env trigHist avail processed r = some v ∧
      v.hasHistoricalData = false := by
  rw [validateCandidate]
  cases hf : List.find? (fun m => m.id == r.marketId) avail with
  | none => exact Or.inl rfl
  | some market =>
    simp only []
    by_cases hproc : market.id ∈ processed
    · rw [if_pos hproc]
      exact Or.inl rfl
    · rw [if_neg hproc]
      cases htok : extractTokenId market with
      | none => exact Or.inr ⟨downgradeResult r, rfl, rfl⟩
      | some tok =>
        simp only []
        by_cases h10 : trigHist.length < 10
        · rw [if_pos h10]
          exact Or.inr ⟨downgradeResult r, rfl, rfl⟩
        · rw [if_neg h10]
          by_cases hm10 : (env.priceHistory tok).length < 10
          · rw [if_pos hm10]
            exact Or.inr ⟨downgradeResult r, rfl, rfl⟩
          · rw [if_neg hm10]
            by_cases ha10 :
                (alignPriceSeries trigHist (env.priceHistory tok)).1.length < 10
            · rw [if_pos ha10]
              exact Or.inr ⟨downgradeResult r, rfl, rfl⟩
            · rw [if_neg ha10]
              rw [if_neg (fun hcon => absurd hcon.2 (not_le.mpr hstr))]
              exact Or.inl rfl

/-- C1 (corrected: the direction applied to the target node's predicted
probability is always the collaborator's claimed direction, also when a
historical correlation exists — the engine's comment says correlation is
used for magnitude only; the sign of the historical correlation is
recorded as the edge's direction field instead): every non-trigger node's
predicted probability moves by the historical magnitude in the claimed
direction of some generator candidate for it, and every edge's recorded
direction is the sign of its target's historical correlation. -/
theorem builder_direction (env : Env) (name description : String)
    (triggerMarket : Market) (triggerOutcome : String)
    (availableMarkets : List Market) (params : PropagationParams) :
    (∀ n ∈ (createSimulationScenario env name description triggerMarket
        triggerOutcome availableMarkets params).nodes, n.layer ≠ 0 →
      ∃ (cand : CausalResult) (parent : Market) (pool : List Market),
        cand ∈ env.llm parent triggerOutcome pool ∧
        cand.marketId = n.market.id ∧
        n.predictedProbability = clampProb (n.currentProbability +
          (if cand.impactDirection = "increase" then (1 : ℝ) else -1) *
            (|histCorrOf env triggerMarket n.market| *
              triggerShock triggerMarket triggerOutcome * (1/2)))) ∧
    (∀ e ∈ (createSimulationScenario env name description triggerMarket
        triggerOutcome availableMarkets params).edges,
      ∃ n ∈ (createSimulationScenario env name description triggerMarket
        triggerOutcome availableMarkets params).nodes,
        n.market.id = e.targetMarketId ∧
        e.direction = (if 0 < histCorrOf env triggerMarket n.market
          then "increase" else "decrease")) := by
  have hInv := builtState_inv env triggerMarket triggerOutcome availableMarkets params
  rw [scenario_nodes_eq, scenario_edges_eq]
  constructor
  · intro n hn hl
    rcases hInv.node_fact n hn with h | ⟨_, _, _, cand, parent, pool, hc1, hc2, _, hc4⟩
    · exact absurd (by rw [h]; rfl) hl
    · exact ⟨cand, parent, pool, hc1, hc2, hc4⟩
  · intro e he
    obtain ⟨_, ⟨n, hn, hne, _, _, _, hdir⟩, _⟩ := hInv.edge_fact e he
    exact ⟨n, hn, hne, hdir⟩

/-- C2 (confirmed; the no-historical-data fallback clause is vacuous on
builder output because the builder keeps only data-backed results, so
every admitted candidate is historical): every non-trigger node's
predicted probability is the current probability moved by
`|correlation| * shock * 0.5` in the claimed direction of its generator
candidate, clamped to `[0.01, 0.99]`. -/
theorem builder_magnitude (env : Env) (name description : String)
    (triggerMarket : Market) (triggerOutcome : String)
    (availableMarkets : List Market) (params : PropagationParams) :
    ∀ n ∈ (createSimulationScenario env name description triggerMarket
        triggerOutcome availableMarkets params).nodes, n.layer ≠ 0 →
      20/100 ≤ |histCorrOf env triggerMarket n.market| ∧
      (∃ (cand : CausalResult) (parent : Market) (pool : List Market),
        cand ∈ env.llm parent triggerOutcome pool ∧
        cand.marketId = n.market.id ∧ 5/10 ≤ cand.strength ∧
        n.predictedProbability = clampProb (n.currentProbability +
          (if cand.impactDirection = "increase" then (1 : ℝ) else -1) *
            (|histCorrOf env triggerMarket n.market| *
              triggerShock triggerMarket triggerOutcome * (1/2)))) ∧
      1/100 ≤ n.predictedProbability ∧ n.predictedProbability ≤ 99/100 := by
  have hInv := builtState_inv env triggerMarket triggerOutcome availableMarkets params
  rw [scenario_nodes_eq]
  intro n hn hl
  rcases hInv.node_fact n hn with h | ⟨_, _, hgate, cand, parent, pool, hc1, hc2, hc3, hc4⟩
  · exact absurd (by rw [h]; rfl) hl
  · refine ⟨hgate, ⟨cand, parent, pool, hc1, hc2, hc3, hc4⟩, ?_, ?_⟩
    · rw [hc4]
      exact (clampProb_mem _).1
    · rw [hc4]
      exact (clampProb_mem _).2

/-- C3 (confirmed): a market whose historical correlation against the
trigger has magnitude below 0.20 appears in no node (and hence at no
edge endpoint) of the built graph; a candidate with claimed strength
below 0.5 is never accepted with historical data by the validator (AND
gate); and every edge's final strength is the arithmetic mean of the
target's correlation magnitude and the claimed strength of the generator
candidate (with claimed strength at least 0.5) the edge's target
originates from. -/
theorem builder_and_gate (env : Env) (name description : String)
    (triggerMarket : Market) (triggerOutcome : String)
    (availableMarkets : List Market) (params : PropagationParams) :
    (∀ n ∈ (createSimulationScenario env name description triggerMarket
        triggerOutcome availableMarkets params).nodes,
      n.market.id ≠ triggerMarket.id →
        20/100 ≤ |histCorrOf env triggerMarket n.market|) ∧
    (∀ e ∈ (createSimulationScenario env name description triggerMarket
        triggerOutcome availableMarkets params).edges,
      ∃ n ∈ (createSimulationScenario env name description triggerMarket
        triggerOutcome availableMarkets params).nodes,
        n.market.id = e.targetMarketId ∧
        ∃ (cand : CausalResult) (parent : Market) (pool : List Market),
          cand ∈ env.llm parent triggerOutcome pool ∧
          cand.marketId = e.targetMarketId ∧ 5/10 ≤ cand.strength ∧
          e.strength =
            (|histCorrOf env triggerMarket n.market| + cand.strength) / 2) ∧
    (∀ (trigHist : List PricePoint) (avail : List Market)
        (processed : List String) (r : CausalResult), r.strength < 5/10 →
      validateCandidate env trigHist avail processed r = none ∨
      ∃ v, validateCandidate env trigHist avail processed r = some v ∧
        v.hasHistoricalData = false) := by
  have hInv := builtState_inv env triggerMarket triggerOutcome availableMarkets params
  rw [scenario_nodes_eq, scenario_edges_eq]
  refine ⟨?_, ?_, ?_⟩
  · intro n hn hne
    rcases hInv.node_fact n hn with h | ⟨_, _, hgate, _⟩
    · exact absurd (by rw [h]; rfl) hne
    · exact hgate
  · intro e he
    obtain ⟨_, ⟨n, hn, hne, _, _, hstrength, _⟩, _⟩ := hInv.edge_fact e he
    exact ⟨n, hn, hne, hstrength⟩
  · exact fun trigHist avail processed r hstr =>
      validateCandidate_lowStrength env trigHist avail processed r hstr

/-- C4 (confirmed): the built graph respects the pyramid fan-out bounds
— at most 3 layer-1 nodes in total, at most 2 edges from any one parent
into layer 2, at most 1 edge from any one parent into layer 3 — and no
node sits at a layer above the depth limit 3. -/
theorem builder_fanout (env : Env) (name description : String)
    (triggerMarket : Market) (triggerOutcome : String)
    (availableMarkets : List Market) (params : PropagationParams) :
    (((createSimulationScenario env name description triggerMarket
        triggerOutcome availableMarkets params).nodes.filter
        (fun n => n.layer == 1)).length ≤ 3) ∧
    (∀ s : String,
      (((createSimulationScenario env name description triggerMarket
        triggerOutcome availableMarkets params).edges.filter
        (fun e => e.sourceMarketId == s &&
          (layerOfId (createSimulationScenario env name description
            triggerMarket triggerOutcome availableMarkets params).nodes
            e.targetMarketId == some 2))).length ≤ 2)) ∧
    (∀ s : String,
      (((createSimulationScenario env name description triggerMarket
        triggerOutcome availableMarkets params).edges.filter
        (fun e => e.sourceMarketId == s &&
          (layerOfId (createSimulationScenario env name description
            triggerMarket triggerOutcome availableMarkets params).nodes
            e.targetMarketId == some 3))).length ≤ 1)) ∧
    (∀ n ∈ (createSimulationScenario env name description triggerMarket
        triggerOutcome availableMarkets params).nodes, n.layer ≤ 3) := by
  have hInv := builtState_inv env triggerMarket triggerOutcome availableMarkets params
  rw [scenario_nodes_eq, scenario_edges_eq]
  set st := builtState env triggerMarket triggerOutcome availableMarkets params
  have hcount : ∀ (s : String) (K : ℕ),
      (st.edges.filter (fun e => e.sourceMarketId == s &&
        (layerOfId st.nodes e.targetMarketId == some K))).length ≤
        getMaxNodesForLayer K := by
    intro s K
    have hsplit : st.edges.filter (fun e => e.sourceMarketId == s &&
        (layerOfId st.nodes e.targetMarketId == some K)) =
        (st.edges.filter (fun e => e.sourceMarketId == s)).filter
          (fun e => layerOfId st.nodes e.targetMarketId == some K) := by
      rw [List.filter_filter]
      congr 1
      funext e
      rw [Bool.and_comm]
    rw [hsplit]
    rcases hInv.fanout s with h | ⟨L, htg, hlen⟩
    · rw [h]
      simp [getMaxNodesForLayer]
    · by_cases hLK : L + 1 = K
      · subst hLK
        exact le_trans (List.length_filter_le _ _) hlen
      · have hempty : (st.edges.filter (fun e => e.sourceMarketId == s)).filter
            (fun e => layerOfId st.nodes e.targetMarketId == some K) = [] := by
          rw [List.filter_eq_nil_iff]
          intro e he
          rw [htg e he]
          simp
          omega
        rw [hempty]
        simp
  refine ⟨hInv.layer1, fun s => le_trans (hcount s 2) (by decide),
    fun s => le_trans (hcount s 3) (by decide), hInv.layer_le⟩

/-- C5 (confirmed): the built graph's nodes have pairwise distinct
market ids, every edge endpoint has a corresponding node, and the
trigger market's node is present at layer 0 with predicted probability
exactly 1. -/
theorem builder_graph_shape (env : Env) (name description : String)
    (triggerMarket : Market) (triggerOutcome : String)
    (availableMarkets : List Market) (params : PropagationParams) :
    ((createSimulationScenario env name description triggerMarket
      triggerOutcome availableMarkets params).nodes.map
        (fun n => n.market.id)).Nodup ∧
    (∀ e ∈ (createSimulationScenario env name description triggerMarket
        triggerOutcome availableMarkets params).edges,
      (∃ n ∈ (createSimulationScenario env name description triggerMarket
        triggerOutcome availableMarkets params).nodes,
        n.market.id = e.sourceMarketId) ∧
      (∃ n ∈ (createSimulationScenario env name description triggerMarket
        triggerOutcome availableMarkets params).nodes,
        n.market.id = e.targetMarketId)) ∧
    (∃ n ∈ (createSimulationScenario env name description triggerMarket
        triggerOutcome availableMarkets params).nodes,
      n.market.id = triggerMarket.id ∧ n.layer = 0 ∧
      n.predictedProbability = 1) := by
  have hInv := builtState_inv env triggerMarket triggerOutcome availableMarkets params
  rw [scenario_nodes_eq, scenario_edges_eq]
  refine ⟨hInv.nodup, ?_, ?_⟩
  · intro e he
    obtain ⟨hsrc, ⟨n, hn, hne, _⟩, _⟩ := hInv.edge_fact e he
    exact ⟨hsrc, n, hn, hne⟩
  · exact ⟨triggerNodeOf triggerMarket triggerOutcome, hInv.trig_mem, rfl, rfl, rfl⟩

/-- C10 (confirmed): every edge of the built graph runs from a node at
some layer `L` to a node at layer `L + 1`, the directed edge set
therefore admits no cycle (no id steps back to itself through the
transitive closure), and the loop detector applied to the builder's
output returns no loops. -/
theorem builder_acyclic (env : Env) (name description : String)
    (triggerMarket : Market) (triggerOutcome : String)
    (availableMarkets : List Market) (params : PropagationParams) :
    (∀ e ∈ (createSimulationScenario env name description triggerMarket
        triggerOutcome availableMarkets params).edges, ∃ L,
      layerOfId (createSimulationScenario env name description triggerMarket
        triggerOutcome availableMarkets params).nodes e.sourceMarketId =
          some L ∧
      layerOfId (createSimulationScenario env name description triggerMarket
        triggerOutcome availableMarkets params).nodes e.targetMarketId =
          some (L + 1)) ∧
    (∀ a : String, ¬ Relation.TransGen (edgeRel (createSimulationScenario env
      name description triggerMarket triggerOutcome availableMarkets
      params).edges) a a) ∧
    detectFeedbackLoops (createSimulationScenario env name description
      triggerMarket triggerOutcome availableMarkets params).nodes
      (createSimulationScenario env name description triggerMarket
        triggerOutcome availableMarkets params).edges = [] := by
  have hInv := builtState_inv env triggerMarket triggerOutcome availableMarkets params
  rw [scenario_nodes_eq, scenario_edges_eq]
  set st := builtState env triggerMarket triggerOutcome availableMarkets params
  have hrank : ∀ e ∈ st.edges,
      (layerOfId st.nodes e.targetMarketId).getD 0 =
        (layerOfId st.nodes e.sourceMarketId).getD 0 + 1 := by
    intro e he
    obtain ⟨_, _, L, hsrc, htgt⟩ := hInv.edge_fact e he
    rw [hsrc, htgt]
    rfl
  refine ⟨?_, ?_, ?_⟩
  · intro e he
    obtain ⟨_, _, L, hsrc, htgt⟩ := hInv.edge_fact e he
    exact ⟨L, hsrc, htgt⟩
  · intro a h
    exact lt_irrefl _ (transGen_rank st.edges
      (fun id => (layerOfId st.nodes id).getD 0) hrank a a h)
  · exact detectFeedbackLoops_of_rank st.nodes st.edges
      (fun id => (layerOfId st.nodes id).getD 0) hrank

/-! ## Route lemmas (claim C9) -/

/-- C9 (corrected: the invalid-outcome check is indeed performed and
reported before any graph construction, but it is not the only
caller-facing fatal condition — missing fields, an unknown trigger
market, and a pool of fewer than 100 markets also abort the run with an
error): when both required fields are present and the trigger market
resolves, a simulated outcome not among the market's outcomes makes the
route return the 400 error without ever invoking the graph builder. -/
theorem post_invalid_outcome (renv : RouteEnv) (req : SimulationRequest)
    (h1 : jsFalsyStr req.marketId = false) (h2 : jsFalsyStr req.outcome = false)
    (m : Market) (hm : renv.getMarketDetails (req.marketId.getD "") = some m)
    (hout : req.outcome.getD "" ∉ m.outcomes) :
    post renv req = ApiResponse.error 400 "Invalid outcome for this market" := by
  rw [post, if_neg (by simp [h1, h2]), hm]
  simp only []
  rw [if_neg hout]

/-- A concrete market for the route counterexample and witness. -/
def cexRouteMarket : Market :=
  { id := "M1", question := "q", outcomes := ["Yes", "No"],
    outcomePrices := [1/2, 1/2], tokenId := none }

/-- A concrete route environment whose market pool has a single entry. -/
def cexRouteEnv : RouteEnv :=
  { getMarketDetails := fun mid => if mid = "M1" then some cexRouteMarket else none,
    getMarkets := [cexRouteMarket],
    engineEnv := { llm := fun _ _ _ => [], priceHistory := fun _ => [] } }

/-- A concrete well-formed request whose outcome is valid. -/
def cexRouteReq : SimulationRequest :=
  { marketId := some "M1", outcome := some "Yes", scenarioName := none,
    scenarioDescription := none, conservativeMode := none, maxDepth := none,
    minCorrelation := none, includeLLMOnly := none }

/-- C9 counterexample: a request whose simulated outcome is listed by
the trigger market still ends in a caller-facing fatal error (the
too-few-markets 500), so the invalid-outcome condition is not the only
caller-facing fatal condition. -/
theorem post_other_fatal_cex :
    cexRouteReq.outcome.getD "" ∈ cexRouteMarket.outcomes ∧
    post cexRouteEnv cexRouteReq =
      ApiResponse.error 500 "Only fetched 1 markets - expected thousands" := by
  constructor
  · decide
  · rfl

/-- C9 witness: the amended theorem applied at a concrete request whose
outcome "Maybe" is not among the trigger market's outcomes. -/
theorem post_invalid_outcome_witness :
    jsFalsyStr (some "M1") = false ∧ jsFalsyStr (some "Maybe") = false ∧
    cexRouteEnv.getMarketDetails ((some "M1").getD "") = some cexRouteMarket ∧
    (some "Maybe").getD "" ∉ cexRouteMarket.outcomes ∧
    post cexRouteEnv { cexRouteReq with outcome := some "Maybe" } =
      ApiResponse.error 400 "Invalid outcome for this market" := by
  refine ⟨rfl, rfl, rfl, by decide, ?_⟩
  exact post_invalid_outcome cexRouteEnv _ rfl rfl cexRouteMarket rfl (by decide)

/-- C6 witness: the amended theorem applied at concrete inputs — two
equal-length three-point series for symmetry, and a ten-point series
with nonzero variance whose self-correlation evaluates to 1. -/
theorem calculateCorrelation_symm_and_self_witness :
    (([(1 : ℝ), 2, 3].length = [(5 : ℝ), 4, 9].length) ∧
      calculateCorrelation [(1 : ℝ), 2, 3] [(5 : ℝ), 4, 9] =
        calculateCorrelation [(5 : ℝ), 4, 9] [(1 : ℝ), 2, 3]) ∧
    (10 ≤ ([(0 : ℝ), 0, 0, 0, 0, 0, 0, 0, 0, 1] : List ℝ).length ∧
      centeredSq [(0 : ℝ), 0, 0, 0, 0, 0, 0, 0, 0, 1]
        (jsMean [(0 : ℝ), 0, 0, 0, 0, 0, 0, 0, 0, 1]) ≠ 0 ∧
      calculateCorrelation [(0 : ℝ), 0, 0, 0, 0, 0, 0, 0, 0, 1]
        [(0 : ℝ), 0, 0, 0, 0, 0, 0, 0, 0, 1] = 1) := by
  have hvar : centeredSq [(0 : ℝ), 0, 0, 0, 0, 0, 0, 0, 0, 1]
      (jsMean [(0 : ℝ), 0, 0, 0, 0, 0, 0, 0, 0, 1]) ≠ 0 := by
    simp only [centeredSq, jsMean, List.foldl_cons, List.foldl_nil, List.sum_cons,
      List.sum_nil, List.length_cons, List.length_nil]
    norm_num
  refine ⟨⟨by norm_num, calculateCorrelation_symm_and_self.1 _ _ (by norm_num)⟩,
    by norm_num, hvar, calculateCorrelation_symm_and_self.2 _ (by norm_num) hvar⟩

/-! ## A concrete builder run (for the builder counterexample and
witnesses): one trigger market and one candidate market whose aligned
price histories are perfectly anti-correlated, while the collaborator
claims an increase. -/

/-- Concrete trigger market. -/
def trigM : Market :=
  { id := "T", question := "t", outcomes := ["Yes", "No"],
    outcomePrices := [1/5, 4/5], tokenId := some "tokT" }

/-- Concrete candidate market. -/
def mA : Market :=
  { id := "A", question := "a", outcomes := ["Yes", "No"],
    outcomePrices := [3/10, 7/10], tokenId := some "tokA" }

/-- Concrete generator candidate for `mA`: high claimed strength,
claimed direction "increase". -/
def candA : CausalResult :=
  { marketId := "A", reasoning := "because", timelag := "immediate",
    strength := 8/10, impactDirection := "increase" }

/-- A generator candidate with claimed strength below 0.5. -/
def candC : CausalResult :=
  { marketId := "C", reasoning := "because", timelag := "days",
    strength := 2/5, impactDirection := "increase" }

/-- Ten hourly-spaced trigger prices, increasing 1..10. -/
def histT : List PricePoint :=
  [⟨0, 1⟩, ⟨10000, 2⟩, ⟨20000, 3⟩, ⟨30000, 4⟩, ⟨40000, 5⟩,
   ⟨50000, 6⟩, ⟨60000, 7⟩, ⟨70000, 8⟩, ⟨80000, 9⟩, ⟨90000, 10⟩]

/-- Ten prices at the same timestamps, decreasing 10..1 (perfect
anti-correlation with `histT`). -/
def histA : List PricePoint :=
  [⟨0, 10⟩, ⟨10000, 9⟩, ⟨20000, 8⟩, ⟨30000, 7⟩, ⟨40000, 6⟩,
   ⟨50000, 5⟩, ⟨60000, 4⟩, ⟨70000, 3⟩, ⟨80000, 2⟩, ⟨90000, 1⟩]

/-- The aligned trigger prices. -/
def xT : List ℝ := [1, 2, 3, 4, 5, 6, 7, 8, 9, 10]

/-- The aligned candidate prices. -/
def yA : List ℝ := [10, 9, 8, 7, 6, 5, 4, 3, 2, 1]

/-- The concrete external environment. -/
def envC : Env :=
  { llm := fun m _ _ => if m.id = "T" then [candA] else [],
    priceHistory := fun tok =>
      if tok = "tokT" then histT else if tok = "tokA" then histA else [] }

/-- The concrete market pool. -/
def availC : List Market := [mA]

/-- Concrete propagation parameters with depth limit 1, so the single
admitted node is not expanded further. -/
def paramsC : PropagationParams :=
  { conservativeMode := false, maxDepth := 1, minCorrelation := 3/10,
    includeLLMOnly := true }

/-- The validated result the validator produces for `candA`. -/
def vA : ValidatedResult :=
  { marketId := "A", reasoning := "because", timelag := "immediate",
    strength := (|(-1 : ℝ)| + candA.strength) / 2,
    impactDirection := "increase",
    correlation := some (-1),
    impactMagnitude := some (calculateImpactMagnitude
      (alignPriceSeries (trigHistOf envC trigM) (envC.priceHistory "tokA")).1
      (alignPriceSeries (trigHistOf envC trigM) (envC.priceHistory "tokA")).2.1
      (5/100)),
    hasHistoricalData := true }

/-- The node the builder creates for `mA` in the concrete run. -/
def cexNodeA : SimulationNode := addedNode trigM "Yes" mA 0 vA

/-- The edge the builder creates for `mA` in the concrete run. -/
def cexEdgeA : CausalLink :=
  addedEdge mA trigM.id (trigHistOf envC trigM).length vA

/-- The builder's final state in the concrete run. -/
def cexStFinal : BuildState :=
  { nodes := [triggerNodeOf trigM "Yes", cexNodeA], edges := [cexEdgeA],
    processed := [trigM.id, mA.id], queue := [] }

/-- The scenario produced by the concrete run. -/
def cexScenario : SimulationScenario :=
  createSimulationScenario envC "n" "d" trigM "Yes" availC paramsC

lemma buildLoop_step (env : Env) (triggerMarket : Market)
    (triggerOutcome : String) (availableMarkets : List Market)
    (params : PropagationParams) (trigHist : List PricePoint) (fuel : ℕ)
    (st : BuildState) (current : Market) (curLayer : ℕ)
    (rest : List (Market × ℕ)) (hq : st.queue = (current, curLayer) :: rest)
    (hc : curLayer < 3) :
    buildLoop env triggerMarket triggerOutcome availableMarkets params trigHist
      (fuel + 1) st =
    buildLoop env triggerMarket triggerOutcome availableMarkets params trigHist
      fuel (processOne env triggerMarket triggerOutcome availableMarkets params
        trigHist current curLayer { st with queue := rest }) := by
  rw [buildLoop, hq]
  simp only []
  rw [if_pos hc]

lemma buildLoop_nil (env : Env) (triggerMarket : Market)
    (triggerOutcome : String) (availableMarkets : List Market)
    (params : PropagationParams) (trigHist : List PricePoint) (fuel : ℕ)
    (st : BuildState) (hq : st.queue = []) :
    buildLoop env triggerMarket triggerOutcome availableMarkets params trigHist
      fuel st = st := by
  cases fuel with
  | zero => rw [buildLoop]
  | succ fuel => rw [buildLoop, hq]

lemma priceAtOr_cons_zero (p : ℝ) (rest : List ℝ) (d : ℝ) (hp : p ≠ 0) :
    priceAtOr (p :: rest) 0 d = p := by
  show jsOr p d = p
  rw [jsOr, if_neg hp]

lemma corr_xT_yA : calculateCorrelation xT yA = -1 := by
  have hm1 : jsMean xT = 11/2 := by
    simp only [jsMean, xT, List.sum_cons, List.sum_nil, List.length_cons,
      List.length_nil]
    norm_num
  have hm2 : jsMean yA = 11/2 := by
    simp only [jsMean, yA, List.sum_cons, List.sum_nil, List.length_cons,
      List.length_nil]
    norm_num
  have hv1 : centeredSq xT (11/2) = 165/2 := by
    simp only [centeredSq, xT, List.foldl_cons, List.foldl_nil]
    norm_num
  have hv2 : centeredSq yA (11/2) = 165/2 := by
    simp only [centeredSq, yA, List.foldl_cons, List.foldl_nil]
    norm_num
  have hcov : centeredProd xT yA (11/2) (11/2) = -(165/2) := by
    simp only [centeredProd, xT, yA, List.zip_cons_cons, List.zip_nil_left,
      List.foldl_cons, List.foldl_nil]
    norm_num
  have hlen : ((xT.length : ℕ) : ℝ) = 10 := by
    simp [xT]
  have hs : Real.sqrt (165/2 / 10) ≠ 0 := by
    rw [Real.sqrt_ne_zero']
    norm_num
  rw [calculateCorrelation]
  rw [if_neg (show ¬(xT.length ≠ yA.length ∨ xT.length < 10) by
    simp [xT, yA])]
  simp only [hm1, hm2, hv1, hv2, hcov, hlen]
  rw [if_neg (not_or.mpr ⟨hs, hs⟩)]
  rw [mul_assoc, Real.mul_self_sqrt (by norm_num : (0:ℝ) ≤ 165/2/10)]
  norm_num

lemma corrA_aligned :
    calculateCorrelation
      (alignPriceSeries (trigHistOf envC trigM) (envC.priceHistory "tokA")).1
      (alignPriceSeries (trigHistOf envC trigM) (envC.priceHistory "tokA")).2.1
      = -1 := by
  have h1 : (alignPriceSeries (trigHistOf envC trigM)
      (envC.priceHistory "tokA")).1 = xT := rfl
  have h2 : (alignPriceSeries (trigHistOf envC trigM)
      (envC.priceHistory "tokA")).2.1 = yA := rfl
  rw [h1, h2, corr_xT_yA]

lemma validate_A (processed : List String) (hproc : mA.id ∉ processed) :
    validateCandidate envC (trigHistOf envC trigM) availC processed candA =
      some vA := by
  rw [validateCandidate]
  rw [show List.find? (fun m => m.id == candA.marketId) availC = some mA
    from rfl]
  simp only []
  rw [if_neg hproc]
  rw [show extractTokenId mA = some "tokA" from rfl]
  simp only []
  rw [if_neg (show ¬(trigHistOf envC trigM).length < 10 by decide)]
  rw [if_neg (show ¬(envC.priceHistory "tokA").length < 10 by decide)]
  rw [if_neg (show ¬(alignPriceSeries (trigHistOf envC trigM)
    (envC.priceHistory "tokA")).1.length < 10 by decide)]
  rw [corrA_aligned]
  rw [if_pos (show (20:ℝ)/100 ≤ |(-1 : ℝ)| ∧ (5:ℝ)/10 ≤ candA.strength from
    ⟨by norm_num, by norm_num [candA]⟩)]
  rfl

lemma addOne_eval_cex (st : BuildState) (hproc : mA.id ∉ st.processed) :
    addOne trigM "Yes" availC paramsC (trigHistOf envC trigM).length trigM 0
      st vA =
    { nodes := st.nodes ++ [cexNodeA], edges := st.edges ++ [cexEdgeA],
      processed := st.processed ++ [mA.id], queue := st.queue } := by
  rw [addOne]
  rw [show List.find? (fun m => m.id == vA.marketId) availC = some mA from rfl]
  simp only []
  rw [if_neg hproc]
  rw [if_neg (show ¬((1:ℝ)/2 < vA.strength ∧ 0 + 1 < paramsC.maxDepth) from
    fun hcon => absurd hcon.2 (by decide))]
  rfl

lemma cex_built : builtState envC trigM "Yes" availC paramsC = cexStFinal := by
  rw [builtState]
  rw [show availC.length + 2 = (availC.length + 1) + 1 from rfl]
  rw [buildLoop_step envC trigM "Yes" availC paramsC (trigHistOf envC trigM)
    (availC.length + 1) (initialState trigM "Yes") trigM 0 [] rfl
    (by norm_num)]
  have hval : processOne envC trigM "Yes" availC paramsC
      (trigHistOf envC trigM) trigM 0
      { initialState trigM "Yes" with queue := [] } = cexStFinal := by
    have hpe : processOne envC trigM "Yes" availC paramsC
        (trigHistOf envC trigM) trigM 0
        { initialState trigM "Yes" with queue := [] } =
        ((sortDescBy (([candA].foldl (fun acc r =>
          match validateCandidate envC (trigHistOf envC trigM) availC
            [trigM.id] r with
          | some v => acc ++ [v]
          | none => acc) []).filter (fun v => v.hasHistoricalData))).take
          (getMaxNodesForLayer (0 + 1))).foldl
          (addOne trigM "Yes" availC paramsC (trigHistOf envC trigM).length
            trigM 0) { initialState trigM "Yes" with queue := [] } := rfl
    rw [hpe]
    rw [List.foldl_cons, List.foldl_nil, validate_A [trigM.id] (by decide)]
    rw [show ((match some vA with
      | some v => ([] : List ValidatedResult) ++ [v]
      | none => []) : List ValidatedResult) = [vA] from rfl]
    rw [show ([vA].filter (fun v => v.hasHistoricalData)) = [vA] from rfl]
    rw [show sortDescBy [vA] = [vA] from rfl]
    rw [show ([vA].take (getMaxNodesForLayer (0 + 1))) = [vA] from rfl]
    rw [List.foldl_cons, List.foldl_nil]
    rw [addOne_eval_cex _ (by decide)]
    rfl
  rw [hval]
  exact buildLoop_nil envC trigM "Yes" availC paramsC (trigHistOf envC trigM)
    (availC.length + 1) cexStFinal rfl

lemma cex_nodes : cexScenario.nodes = [triggerNodeOf trigM "Yes", cexNodeA] := by
  rw [cexScenario, scenario_nodes_eq, cex_built]
  rfl

lemma cex_edges : cexScenario.edges = [cexEdgeA] := by
  rw [cexScenario, scenario_edges_eq, cex_built]
  rfl

lemma cex_histCorr : histCorrOf envC trigM mA = -1 := corrA_aligned

lemma cex_shock : triggerShock trigM "Yes" = 4/5 := by
  rw [triggerShock]
  rw [show jsIndexOf trigM.outcomes "Yes" = 0 from by decide]
  rw [show trigM.outcomePrices = [1/5, 4/5] from rfl]
  rw [priceAtOr_cons_zero _ _ _ (by norm_num : (1:ℝ)/5 ≠ 0)]
  norm_num

lemma cex_current : cexNodeA.currentProbability = 3/10 := by
  show priceAtOr mA.outcomePrices 0 (1/2) = 3/10
  rw [show mA.outcomePrices = [3/10, 7/10] from rfl]
  exact priceAtOr_cons_zero _ _ _ (by norm_num)

lemma cex_pred : cexNodeA.predictedProbability = 7/10 := by
  have h := addedNode_pred trigM "Yes" mA 0 vA (-1) rfl rfl (by norm_num)
  rw [show cexNodeA = addedNode trigM "Yes" mA 0 vA from rfl, h]
  rw [if_pos (show vA.impactDirection = "increase" from rfl)]
  rw [show mA.outcomePrices = [3/10, 7/10] from rfl]
  rw [priceAtOr_cons_zero _ _ _ (by norm_num : (3:ℝ)/10 ≠ 0)]
  rw [cex_shock, clampProb]
  rw [show |(-1 : ℝ)| = 1 by norm_num]
  rw [show (3:ℝ)/10 + 1 * (1 * (4/5) * (1/2)) = 7/10 by norm_num]
  rw [min_eq_right (by norm_num : (7:ℝ)/10 ≤ 99/100),
    max_eq_right (by norm_num : (1:ℝ)/100 ≤ 7/10)]

/-- C1 counterexample: in the concrete run the candidate market's
historical correlation with the trigger is negative, yet its predicted
probability is raised above its current probability (the claimed
"increase" direction is applied), contradicting the claim that a
negative correlation lowers the probability. -/
theorem builder_direction_cex :
    (cexScenario.nodes.getD 1 defaultNode).market.id = "A" ∧
    histCorrOf envC trigM (cexScenario.nodes.getD 1 defaultNode).market < 0 ∧
    (cexScenario.nodes.getD 1 defaultNode).currentProbability <
      (cexScenario.nodes.getD 1 defaultNode).predictedProbability := by
  have hnode : cexScenario.nodes.getD 1 defaultNode = cexNodeA := by
    rw [cex_nodes]
    rfl
  rw [hnode]
  refine ⟨rfl, ?_, ?_⟩
  · rw [show cexNodeA.market = mA from rfl, cex_histCorr]
    norm_num
  · rw [cex_current, cex_pred]
    norm_num

lemma cexNodeA_mem : cexNodeA ∈ cexScenario.nodes := by
  rw [cex_nodes]
  exact List.mem_cons_of_mem _ (List.mem_singleton.mpr rfl)

lemma cexEdgeA_mem : cexEdgeA ∈ cexScenario.edges := by
  rw [cex_edges]
  exact List.mem_singleton.mpr rfl

lemma cexNodeA_layer : cexNodeA.layer = 1 := rfl

lemma cexNodeA_id : cexNodeA.market.id = "A" := rfl

/-- Witness for the corrected C1 at the concrete run: the admitted node's
predicted probability follows its candidate's claimed direction. -/
theorem builder_direction_witness :
    ∃ (cand : CausalResult) (parent : Market) (pool : List Market),
      cand ∈ envC.llm parent "Yes" pool ∧
      cand.marketId = cexNodeA.market.id ∧
      cexNodeA.predictedProbability = clampProb (cexNodeA.currentProbability +
        (if cand.impactDirection = "increase" then (1 : ℝ) else -1) *
          (|histCorrOf envC trigM cexNodeA.market| *
            triggerShock trigM "Yes" * (1/2))) :=
  (builder_direction envC "n" "d" trigM "Yes" availC paramsC).1 cexNodeA
    cexNodeA_mem (by rw [cexNodeA_layer]; decide)

/-- Witness for C2 at the concrete run. -/
theorem builder_magnitude_witness :
    20/100 ≤ |histCorrOf envC trigM cexNodeA.market| ∧
    (∃ (cand : CausalResult) (parent : Market) (pool : List Market),
      cand ∈ envC.llm parent "Yes" pool ∧
      cand.marketId = cexNodeA.market.id ∧ 5/10 ≤ cand.strength ∧
      cexNodeA.predictedProbability = clampProb (cexNodeA.currentProbability +
        (if cand.impactDirection = "increase" then (1 : ℝ) else -1) *
          (|histCorrOf envC trigM cexNodeA.market| *
            triggerShock trigM "Yes" * (1/2)))) ∧
    1/100 ≤ cexNodeA.predictedProbability ∧
    cexNodeA.predictedProbability ≤ 99/100 :=
  builder_magnitude envC "n" "d" trigM "Yes" availC paramsC cexNodeA
    cexNodeA_mem (by rw [cexNodeA_layer]; decide)

/-- Witness for C3 at the concrete run: the admitted node passes the
correlation leg of the gate, the single edge's strength is the mean of
the correlation magnitude and its candidate's claimed strength, and a
candidate with claimed strength 0.4 is never accepted with historical
data. -/
theorem builder_and_gate_witness :
    20/100 ≤ |histCorrOf envC trigM cexNodeA.market| ∧
    (∃ n ∈ cexScenario.nodes, n.market.id = cexEdgeA.targetMarketId ∧
      ∃ (cand : CausalResult) (parent : Market) (pool : List Market),
        cand ∈ envC.llm parent "Yes" pool ∧
        cand.marketId = cexEdgeA.targetMarketId ∧ 5/10 ≤ cand.strength ∧
        cexEdgeA.strength =
          (|histCorrOf envC trigM n.market| + cand.strength) / 2) ∧
    (validateCandidate envC [] [] [] candC = none ∨
      ∃ v, validateCandidate envC [] [] [] candC = some v ∧
        v.hasHistoricalData = false) :=
  ⟨(builder_and_gate envC "n" "d" trigM "Yes" availC paramsC).1 cexNodeA
      cexNodeA_mem (by rw [cexNodeA_id]; decide),
   (builder_and_gate envC "n" "d" trigM "Yes" availC paramsC).2.1 cexEdgeA
      cexEdgeA_mem,
   (builder_and_gate envC "n" "d" trigM "Yes" availC paramsC).2.2 [] [] []
      candC (by rw [show candC.strength = 2/5 from rfl]; norm_num)⟩

/-- Witness for C4 at the concrete run. -/
theorem builder_fanout_witness :
    ((cexScenario.edges.filter (fun e => e.sourceMarketId == "T" &&
      (layerOfId cexScenario.nodes e.targetMarketId == some 2))).length ≤ 2) ∧
    cexNodeA.layer ≤ 3 :=
  ⟨(builder_fanout envC "n" "d" trigM "Yes" availC paramsC).2.1 "T",
   (builder_fanout envC "n" "d" trigM "Yes" availC paramsC).2.2.2 cexNodeA
      cexNodeA_mem⟩

/-- Witness for C5 at the concrete run: the single edge's endpoints both
have nodes. -/
theorem builder_graph_shape_witness :
    (∃ n ∈ cexScenario.nodes, n.market.id = cexEdgeA.sourceMarketId) ∧
    (∃ n ∈ cexScenario.nodes, n.market.id = cexEdgeA.targetMarketId) :=
  (builder_graph_shape envC "n" "d" trigM "Yes" availC paramsC).2.1 cexEdgeA
    cexEdgeA_mem

/-- Witness for C10 at the concrete run: the single edge steps one layer
down. -/
theorem builder_acyclic_witness :
    ∃ L, layerOfId cexScenario.nodes cexEdgeA.sourceMarketId = some L ∧
      layerOfId cexScenario.nodes cexEdgeA.targetMarketId = some (L + 1) :=
  (builder_acyclic envC "n" "d" trigM "Yes" availC paramsC).1 cexEdgeA
    cexEdgeA_mem

end
